import Mathlib

/-!
Verification of the chess rules engine and AI opponent of this repository.

The definitions below are a shallow embedding of the TypeScript sources:
the data model of `types/chess.ts`, `src/engine/ChessEngine.ts`, and the
AIOpponent implementation under `src/ai`.
JavaScript numbers holding board coordinates are modelled as `Int`
(out-of-range array reads yield `undefined` in the source and `none` here);
evaluation scores are modelled as `Rat`.  Fallible operations (the source
throws) return `Option`.  Each definition mirrors its source function of the
same name.
-/

namespace ChessSpec

inductive PieceColor where
  | white
  | black
deriving DecidableEq, Repr

inductive PieceType where
  | pawn
  | knight
  | bishop
  | rook
  | queen
  | king
deriving DecidableEq, Repr

open PieceColor PieceType

/-- The Position interface of types/chess.ts: an integer pair (row, col),
0-indexed, row 0 col 0 = a8; a pure value with no independent identity. -/
structure Position where
  row : Int
  col : Int
deriving DecidableEq, Repr

/-- The positionsEqual helper of types/chess.ts: componentwise equality of
the row and col fields. -/
def positionsEqual (a b : Position) : Bool :=
  a.row = b.row && a.col = b.col

/-- The Piece interface of types/chess.ts: type, color, position and the
hasMoved flag used for castling and pawn double-move tracking. -/
structure Piece where
  type : PieceType
  color : PieceColor
  position : Position
  hasMoved : Bool
deriving DecidableEq, Repr

/-- The Board type of types/chess.ts: an 8x8 grid where each cell contains
either a Piece or null, row-major, row 0 = black back rank. -/
abbrev Board := List (List (Option Piece))

/-- The Move interface of types/chess.ts.  The from and to fields are named
fromPos and toPos because from is reserved in Lean.  The optional boolean
flags of the source are modelled as Bool with default false (undefined and
false are both falsy at every use site).  The source restricts
promotionType to the PromotionType union (queen, rook, bishop, knight); the
model carries the superset Option PieceType, which only widens the space of
inputs the theorems quantify over. -/
structure Move where
  fromPos : Position
  toPos : Position
  piece : Piece
  capturedPiece : Option Piece := none
  isEnPassant : Bool := false
  isCastling : Bool := false
  promotionType : Option PieceType := none
deriving DecidableEq, Repr

/-- The GameState interface of types/chess.ts, restricted to the fields the
engine and the AI read or write.  The remaining optional fields of the
source (isAIThinking, status, winner) are presentation-layer data touched
only by the game controller, never by ChessEngine or AIOpponent, and are
omitted. -/
structure GameState where
  board : Board
  currentTurn : PieceColor
  moveHistory : List Move
  capturedPieces : List Piece
  isCheck : Bool
  isCheckmate : Bool
  isStalemate : Bool
  moveCount : Nat
  lastMove : Option Move := none
deriving DecidableEq, Repr

/-- Safe list indexing by a JavaScript-style integer index: a negative or
out-of-range index reads as undefined. -/
def idx? {α : Type} (l : List α) (i : Int) : Option α :=
  if 0 ≤ i then l.get? i.toNat else none

/-- The board read `state.board[row]?.[col]`: undefined rows and empty cells
both read as none. -/
def cellAt (b : Board) (r c : Int) : Option Piece :=
  ((idx? b r).bind fun row => idx? row c).join

/-- The board write `newBoard[r]![c] = v`.  The source only ever writes
in-range cells (the non-null assertion would crash otherwise), so an
out-of-range write is modelled as a no-op. -/
def setCell (b : Board) (r c : Int) (v : Option Piece) : Board :=
  if 0 ≤ r ∧ 0 ≤ c then
    match b.get? r.toNat with
    | some row => b.set r.toNat (row.set c.toNat v)
    | none => b
  else b

/-- The deep board copy performed by applyMoveToState and executeMove:
each piece is rebuilt field by field. -/
def copyBoard (b : Board) : Board :=
  b.map fun row => row.map fun cell =>
    match cell with
    | some p => some { type := p.type, color := p.color,
                       position := { row := p.position.row, col := p.position.col },
                       hasMoved := p.hasMoved }
    | none => none

/-- Row-major traversal order of the nested for-loops over the board. -/
def coords : List (Int × Int) :=
  (List.range 8).flatMap fun r => (List.range 8).map fun c => (Int.ofNat r, Int.ofNat c)

namespace ChessEngine

/-- ChessEngine.isPositionOnBoard. -/
def isPositionOnBoard (pos : Position) : Bool :=
  pos.row ≥ 0 && pos.row ≤ 7 && pos.col ≥ 0 && pos.col ≤ 7

/-- ChessEngine.getEnPassantMoves. -/
def getEnPassantMoves (pawn : Piece) (state : GameState) : List Position :=
  let correctRank : Int := if pawn.color = white then 3 else 4
  if pawn.position.row ≠ correctRank then []
  else
    match state.lastMove with
    | none => []
    | some lastMove =>
      if lastMove.piece.type ≠ PieceType.pawn ∨ lastMove.piece.color = pawn.color then []
      else
        let rowDiff := (lastMove.toPos.row - lastMove.fromPos.row).natAbs
        if rowDiff ≠ 2 then []
        else
          let opponentPawnCol := lastMove.toPos.col
          let colDiff := (opponentPawnCol - pawn.position.col).natAbs
          if colDiff = 1 ∧ lastMove.toPos.row = pawn.position.row then
            let direction : Int := if pawn.color = white then -1 else 1
            [{ row := pawn.position.row + direction, col := opponentPawnCol }]
          else []

/-- ChessEngine.getPawnMoves. -/
def getPawnMoves (piece : Piece) (state : GameState) : List Position :=
  let row := piece.position.row
  let col := piece.position.col
  let direction : Int := if piece.color = white then -1 else 1
  let forwardOne : Position := { row := row + direction, col := col }
  let forwardMoves : List Position :=
    if isPositionOnBoard forwardOne ∧ cellAt state.board forwardOne.row forwardOne.col = none then
      if piece.hasMoved = false then
        let forwardTwo : Position := { row := row + direction * 2, col := col }
        if isPositionOnBoard forwardTwo ∧ cellAt state.board forwardTwo.row forwardTwo.col = none then
          [forwardOne, forwardTwo]
        else [forwardOne]
      else [forwardOne]
    else []
  let captureLeft : Position := { row := row + direction, col := col - 1 }
  let captureRight : Position := { row := row + direction, col := col + 1 }
  let captureMoves : List Position :=
    [captureLeft, captureRight].filter fun capturePos =>
      isPositionOnBoard capturePos &&
        match cellAt state.board capturePos.row capturePos.col with
        | some targetPiece => targetPiece.color ≠ piece.color
        | none => false
  forwardMoves ++ captureMoves ++ getEnPassantMoves piece state

/-- The eight knight move offsets, in source order. -/
def knightOffsets : List (Int × Int) :=
  [(-2, -1), (-2, 1), (-1, -2), (-1, 2), (1, -2), (1, 2), (2, -1), (2, 1)]

/-- The eight one-square king offsets and queen directions, in source order. -/
def kingOffsets : List (Int × Int) :=
  [(-1, -1), (-1, 0), (-1, 1), (0, -1), (0, 1), (1, -1), (1, 0), (1, 1)]

/-- Offset-based move generation shared by getKnightMoves, getBasicKingMoves
and the non-castling part of getKingMoves: on-board squares that are empty or
hold an opponent piece. -/
def offsetMoves (piece : Piece) (offsets : List (Int × Int)) (state : GameState) :
    List Position :=
  offsets.filterMap fun off =>
    let newPos : Position := { row := piece.position.row + off.1, col := piece.position.col + off.2 }
    if isPositionOnBoard newPos then
      match cellAt state.board newPos.row newPos.col with
      | some targetPiece => if targetPiece.color ≠ piece.color then some newPos else none
      | none => some newPos
    else none

/-- ChessEngine.getKnightMoves. -/
def getKnightMoves (piece : Piece) (state : GameState) : List Position :=
  offsetMoves piece knightOffsets state

/-- The while-loop body of getSlidingMoves.  The fuel argument is an upper
bound on the number of iterations: a walk of constant nonzero step leaves the
eight-row, eight-column board after at most eight on-board squares, so fuel 9
is never exhausted. -/
def slidingLoop (piece : Piece) (dRow dCol : Int) (state : GameState) :
    Nat → Int → Int → List Position
  | 0, _, _ => []
  | fuel + 1, r, c =>
    if isPositionOnBoard { row := r, col := c } then
      match cellAt state.board r c with
      | none => { row := r, col := c } :: slidingLoop piece dRow dCol state fuel (r + dRow) (c + dCol)
      | some targetPiece =>
        if targetPiece.color ≠ piece.color then [{ row := r, col := c }] else []
    else []

/-- ChessEngine.getSlidingMoves. -/
def getSlidingMoves (piece : Piece) (dRow dCol : Int) (state : GameState) : List Position :=
  slidingLoop piece dRow dCol state 9 (piece.position.row + dRow) (piece.position.col + dCol)

/-- ChessEngine.getBishopMoves. -/
def getBishopMoves (piece : Piece) (state : GameState) : List Position :=
  [((-1 : Int), (-1 : Int)), (-1, 1), (1, -1), (1, 1)].flatMap fun d =>
    getSlidingMoves piece d.1 d.2 state

/-- ChessEngine.getRookMoves. -/
def getRookMoves (piece : Piece) (state : GameState) : List Position :=
  [((-1 : Int), (0 : Int)), (1, 0), (0, -1), (0, 1)].flatMap fun d =>
    getSlidingMoves piece d.1 d.2 state

/-- ChessEngine.getQueenMoves. -/
def getQueenMoves (piece : Piece) (state : GameState) : List Position :=
  kingOffsets.flatMap fun d => getSlidingMoves piece d.1 d.2 state

/-- ChessEngine.getBasicKingMoves: one-square king moves without castling,
used for attack detection. -/
def getBasicKingMoves (piece : Piece) (state : GameState) : List Position :=
  offsetMoves piece kingOffsets state

/-- ChessEngine.getPseudoLegalMovesForAttack: pseudo-legal moves for attack
detection; for kings only the basic moves, excluding castling. -/
def getPseudoLegalMovesForAttack (piece : Piece) (state : GameState) : List Position :=
  match piece.type with
  | PieceType.pawn => getPawnMoves piece state
  | PieceType.knight => getKnightMoves piece state
  | PieceType.bishop => getBishopMoves piece state
  | PieceType.rook => getRookMoves piece state
  | PieceType.queen => getQueenMoves piece state
  | PieceType.king => getBasicKingMoves piece state

/-- ChessEngine.isPositionUnderAttack: byColor is the color being attacked;
the scan runs over the whole board in row-major order. -/
def isPositionUnderAttack (position : Position) (byColor : PieceColor) (state : GameState) :
    Bool :=
  let opponentColor : PieceColor := if byColor = white then black else white
  coords.any fun rc =>
    match cellAt state.board rc.1 rc.2 with
    | some piece =>
      piece.color = opponentColor &&
        (getPseudoLegalMovesForAttack piece state).any fun move => positionsEqual move position
    | none => false

/-- ChessEngine.getCastlingMoves. -/
def getCastlingMoves (king : Piece) (state : GameState) : List Position :=
  if king.hasMoved then []
  else if isPositionUnderAttack king.position king.color state then []
  else
    let row := king.position.row
    let col := king.position.col
    let backRank : Int := if king.color = white then 7 else 0
    if row ≠ backRank ∨ col ≠ 4 then []
    else
      let kingside : List Position :=
        match cellAt state.board backRank 7 with
        | some kingsideRook =>
          if kingsideRook.type = PieceType.rook ∧ kingsideRook.color = king.color ∧
              kingsideRook.hasMoved = false then
            if cellAt state.board backRank 5 = none ∧ cellAt state.board backRank 6 = none then
              if isPositionUnderAttack { row := backRank, col := 5 } king.color state then []
              else [{ row := backRank, col := 6 }]
            else []
          else []
        | none => []
      let queenside : List Position :=
        match cellAt state.board backRank 0 with
        | some queensideRook =>
          if queensideRook.type = PieceType.rook ∧ queensideRook.color = king.color ∧
              queensideRook.hasMoved = false then
            if cellAt state.board backRank 1 = none ∧ cellAt state.board backRank 2 = none ∧
                cellAt state.board backRank 3 = none then
              if isPositionUnderAttack { row := backRank, col := 3 } king.color state then []
              else [{ row := backRank, col := 2 }]
            else []
          else []
        | none => []
      kingside ++ queenside

/-- ChessEngine.getKingMoves: basic one-square moves plus castling. -/
def getKingMoves (piece : Piece) (state : GameState) : List Position :=
  offsetMoves piece kingOffsets state ++ getCastlingMoves piece state

/-- ChessEngine.getPseudoLegalMoves. -/
def getPseudoLegalMoves (piece : Piece) (state : GameState) : List Position :=
  match piece.type with
  | PieceType.pawn => getPawnMoves piece state
  | PieceType.knight => getKnightMoves piece state
  | PieceType.bishop => getBishopMoves piece state
  | PieceType.rook => getRookMoves piece state
  | PieceType.queen => getQueenMoves piece state
  | PieceType.king => getKingMoves piece state

/-- ChessEngine.applyMoveToState: simulate a plain piece relocation on a deep
copy of the board; the original state is returned unchanged when the source
square is empty. -/
def applyMoveToState (fromPos toPos : Position) (state : GameState) : GameState :=
  let newBoard := copyBoard state.board
  match cellAt newBoard fromPos.row fromPos.col with
  | none => state
  | some piece =>
    let movedPiece := { piece with position := { row := toPos.row, col := toPos.col } }
    let b1 := setCell newBoard toPos.row toPos.col (some movedPiece)
    let b2 := setCell b1 fromPos.row fromPos.col none
    { state with board := b2 }

/-- ChessEngine.findKing: first king of the color in row-major order. -/
def findKing (color : PieceColor) (state : GameState) : Option Position :=
  (coords.find? fun rc =>
    match cellAt state.board rc.1 rc.2 with
    | some piece => piece.type = PieceType.king && piece.color = color
    | none => false).map fun rc => { row := rc.1, col := rc.2 }

/-- ChessEngine.wouldLeaveKingInCheck. -/
def wouldLeaveKingInCheck (fromPos toPos : Position) (state : GameState) : Bool :=
  let tempState := applyMoveToState fromPos toPos state
  match findKing state.currentTurn tempState with
  | none => true
  | some kingPos => isPositionUnderAttack kingPos state.currentTurn tempState

/-- ChessEngine.getValidMoves: pseudo-legal moves of the piece at the given
square, filtered by the self-check test; empty when the square is empty or
holds a piece of the side not to move. -/
def getValidMoves (position : Position) (state : GameState) : List Position :=
  match cellAt state.board position.row position.col with
  | none => []
  | some piece =>
    if piece.color ≠ state.currentTurn then []
    else
      (getPseudoLegalMoves piece state).filter fun toPos =>
        !(wouldLeaveKingInCheck position toPos state)

/-- ChessEngine.getAllLegalMoves. -/
def getAllLegalMoves (color : PieceColor) (state : GameState) : List Move :=
  coords.flatMap fun rc =>
    match cellAt state.board rc.1 rc.2 with
    | some piece =>
      if piece.color = color then
        (getValidMoves { row := rc.1, col := rc.2 } state).map fun toPos =>
          { fromPos := { row := rc.1, col := rc.2 }, toPos := toPos, piece := piece }
      else []
    | none => []

/-- ChessEngine.hasAnyLegalMoves. -/
def hasAnyLegalMoves (color : PieceColor) (state : GameState) : Bool :=
  coords.any fun rc =>
    match cellAt state.board rc.1 rc.2 with
    | some piece =>
      piece.color = color && (getValidMoves { row := rc.1, col := rc.2 } state).length > 0
    | none => false

/-- ChessEngine.isInCheck: false when the king is missing. -/
def isInCheck (color : PieceColor) (state : GameState) : Bool :=
  match findKing color state with
  | none => false
  | some kingPos => isPositionUnderAttack kingPos color state

/-- ChessEngine.isCheckmate. -/
def isCheckmate (color : PieceColor) (state : GameState) : Bool :=
  if !(isInCheck color state) then false
  else !(hasAnyLegalMoves color state)

/-- ChessEngine.isStalemate. -/
def isStalemate (state : GameState) : Bool :=
  let currentColor := state.currentTurn
  if isInCheck currentColor state then false
  else !(hasAnyLegalMoves currentColor state)

/-- ChessEngine.isPawnPromotion. -/
def isPawnPromotion (fromPos toPos : Position) (state : GameState) : Bool :=
  match cellAt state.board fromPos.row fromPos.col with
  | none => false
  | some piece =>
    if piece.type ≠ PieceType.pawn then false
    else
      let promotionRank : Int := if piece.color = white then 0 else 7
      toPos.row = promotionRank

/-- ChessEngine.executeMove: none models the thrown error when the source
square is empty.  The board edits happen in source order on a deep copy; the
status flags are recomputed sequentially on the new state. -/
def executeMove (move : Move) (state : GameState) : Option GameState :=
  let newBoard := copyBoard state.board
  match cellAt newBoard move.fromPos.row move.fromPos.col with
  | none => none
  | some piece =>
    let targetPiece := cellAt newBoard move.toPos.row move.toPos.col
    let captureResolved : Option Piece × Board :=
      if move.isEnPassant then
        match cellAt newBoard move.fromPos.row move.toPos.col with
        | some capturedPawn => (some capturedPawn, setCell newBoard move.fromPos.row move.toPos.col none)
        | none => (none, newBoard)
      else
        match targetPiece with
        | some tp => (some tp, newBoard)
        | none => (none, newBoard)
    let capturedPiece := captureResolved.1
    let movedPiece := { piece with position := { row := move.toPos.row, col := move.toPos.col },
                                   hasMoved := true }
    let b1 := setCell captureResolved.2 move.toPos.row move.toPos.col (some movedPiece)
    let b2 := setCell b1 move.fromPos.row move.fromPos.col none
    let b3 :=
      if move.isCastling then
        let backRank : Int := if piece.color = white then 7 else 0
        if move.toPos.col = 6 then
          match cellAt b2 backRank 7 with
          | some rookPiece =>
            setCell (setCell b2 backRank 5
              (some { rookPiece with position := { row := backRank, col := 5 }, hasMoved := true }))
              backRank 7 none
          | none => b2
        else
          match cellAt b2 backRank 0 with
          | some rookPiece =>
            setCell (setCell b2 backRank 3
              (some { rookPiece with position := { row := backRank, col := 3 }, hasMoved := true }))
              backRank 0 none
          | none => b2
      else b2
    let b4 :=
      match move.promotionType with
      | some promotionType =>
        setCell b3 move.toPos.row move.toPos.col (some { movedPiece with type := promotionType })
      | none => b3
    let newCapturedPieces :=
      state.capturedPieces ++ (match capturedPiece with | some cp => [cp] | none => [])
    let newTurn : PieceColor := if state.currentTurn = white then black else white
    let executedMove : Move := { move with capturedPiece := capturedPiece }
    let newMoveHistory := state.moveHistory ++ [executedMove]
    let s1 : GameState :=
      { board := b4, currentTurn := newTurn, moveHistory := newMoveHistory,
        capturedPieces := newCapturedPieces, isCheck := false, isCheckmate := false,
        isStalemate := false, moveCount := state.moveCount + 1, lastMove := some executedMove }
    let s2 := { s1 with isCheck := isInCheck newTurn s1 }
    let s3 := { s2 with isCheckmate := isCheckmate newTurn s2 }
    let s4 := { s3 with isStalemate := isStalemate s3 }
    some s4

/-- ChessEngine.isValidMove. -/
def isValidMove (move : Move) (state : GameState) : Bool :=
  match cellAt state.board move.fromPos.row move.fromPos.col with
  | none => false
  | some piece =>
    if piece.color ≠ state.currentTurn then false
    else if piece.type ≠ move.piece.type ∨ piece.color ≠ move.piece.color then false
    else
      let validMoves := getValidMoves move.fromPos state
      if !(validMoves.any fun validMove => positionsEqual validMove move.toPos) then false
      else if move.isCastling &&
          !(piece.type = PieceType.king ∧ (move.toPos.col - move.fromPos.col).natAbs = 2) then
        false
      else if move.isEnPassant &&
          !(piece.type = PieceType.pawn ∧ move.toPos.col ≠ move.fromPos.col ∧
            cellAt state.board move.toPos.row move.toPos.col = none) then
        false
      else
        match move.promotionType with
        | some _ => isPawnPromotion move.fromPos move.toPos state
        | none => true

/-- The back-rank piece order shared by both colors. -/
def backRankTypes : List PieceType :=
  [PieceType.rook, PieceType.knight, PieceType.bishop, PieceType.queen,
   PieceType.king, PieceType.bishop, PieceType.knight, PieceType.rook]

/-- ChessEngine.createInitialBoard. -/
def createInitialBoard : Board :=
  [ (backRankTypes.enum).map fun tc =>
      some { type := tc.2, color := black, position := { row := 0, col := (tc.1 : Int) }, hasMoved := false },
    (List.range 8).map fun c =>
      some { type := PieceType.pawn, color := black, position := { row := 1, col := (c : Int) }, hasMoved := false },
    List.replicate 8 none,
    List.replicate 8 none,
    List.replicate 8 none,
    List.replicate 8 none,
    (List.range 8).map fun c =>
      some { type := PieceType.pawn, color := white, position := { row := 6, col := (c : Int) }, hasMoved := false },
    (backRankTypes.enum).map fun tc =>
      some { type := tc.2, color := white, position := { row := 7, col := (tc.1 : Int) }, hasMoved := false } ]

/-- ChessEngine.initializeGame. -/
def initializeGame : GameState :=
  { board := createInitialBoard, currentTurn := white, moveHistory := [],
    capturedPieces := [], isCheck := false, isCheckmate := false,
    isStalemate := false, moveCount := 0, lastMove := none }

end ChessEngine

/-! ## AI opponent

The AIOpponent implementation kept under src/ai.  Scores are JavaScript
numbers; they are modelled as Rat.  The value Infinity appears only as the
initial alpha, beta and best-so-far values of the alpha-beta loops and is
modelled by a rational bound that strictly exceeds every reachable score
(static evaluations are bounded by 64 pieces times less than 10 points, and
mate scores are 10000), which preserves every comparison the source makes.
The Math.random stream is passed in as an explicit argument.  The timeout
race of generateMove always resolves to the search result, because the
search promise executor runs synchronously to completion before the timer
can fire; the model therefore returns the search result directly. -/

namespace AIOpponent

open ChessEngine PieceColor PieceType

inductive DifficultyMode where
  | easy
  | hard
deriving DecidableEq, Repr

structure AIConfig where
  difficulty : DifficultyMode
  maxThinkingTime : Nat

open DifficultyMode

/-- The standard piece values of AIOpponent.evaluatePosition. -/
def pieceValues : PieceType → Rat
  | PieceType.pawn => 1
  | PieceType.knight => 3
  | PieceType.bishop => 3
  | PieceType.rook => 5
  | PieceType.queen => 9
  | PieceType.king => 0

/-- The fixed center-control bonus table of AIOpponent.evaluatePosition. -/
def centerBonus : List (List Rat) :=
  [ [0, 0, 0, 0, 0, 0, 0, 0],
    [0, 1/10, 1/10, 1/10, 1/10, 1/10, 1/10, 0],
    [0, 1/10, 2/10, 2/10, 2/10, 2/10, 1/10, 0],
    [0, 1/10, 2/10, 3/10, 3/10, 2/10, 1/10, 0],
    [0, 1/10, 2/10, 3/10, 3/10, 2/10, 1/10, 0],
    [0, 1/10, 2/10, 2/10, 2/10, 2/10, 1/10, 0],
    [0, 1/10, 1/10, 1/10, 1/10, 1/10, 1/10, 0],
    [0, 0, 0, 0, 0, 0, 0, 0] ]

/-- Lookup centerBonus[row][col]; every use is in bounds. -/
def centerBonusAt (r c : Int) : Rat :=
  (((idx? centerBonus r).getD []).getD c.toNat 0 : Rat)

/-- AIOpponent.evaluatePosition: signed material, center and development
score, positive for black. -/
def evaluatePosition (state : GameState) : Rat :=
  coords.foldl (fun score rc =>
    match cellAt state.board rc.1 rc.2 with
    | none => score
    | some piece =>
      let materialValue := pieceValues piece.type
      let positionalValue := centerBonusAt rc.1 rc.2
      let developmentBonus : Rat :=
        if piece.hasMoved ∧ piece.type ≠ PieceType.pawn ∧ piece.type ≠ PieceType.king
        then 1/10 else 0
      let totalValue := materialValue + positionalValue + developmentBonus
      if piece.color = black then score + totalValue else score - totalValue) 0

/-- Models JavaScript Infinity in the alpha-beta search; strictly larger
than every reachable score. -/
def infinityScore : Rat := 1000000

/-- The shared base case of minimax: reached when the depth is exhausted or
the position is terminal. -/
def terminalScore (state : GameState) (maximizingPlayer : Bool) : Rat :=
  if state.isCheckmate then (if maximizingPlayer then -10000 else 10000)
  else if state.isStalemate then 0
  else evaluatePosition state

/-- The successor state used inside the search: executeMove never fails on
moves produced by getAllLegalMoves, so the fallback branch is unreachable. -/
def execSearchMove (move : Move) (state : GameState) : GameState :=
  (ChessEngine.executeMove move state).getD state

mutual

/-- AIOpponent.minimax: alpha-beta search.  The two loop functions below are
the maximizing and minimizing for-loops of the source, with early return on
the beta-alpha cutoff. -/
def minimax (state : GameState) : Nat → Rat → Rat → Bool → Rat
  | 0, _, _, maximizingPlayer => terminalScore state maximizingPlayer
  | depth + 1, alpha, beta, maximizingPlayer =>
    if state.isCheckmate ∨ state.isStalemate then terminalScore state maximizingPlayer
    else
      let color : PieceColor := if maximizingPlayer then black else white
      let legalMoves := getAllLegalMoves color state
      if legalMoves = [] then
        if isInCheck color state then (if maximizingPlayer then -10000 else 10000) else 0
      else
        if maximizingPlayer then
          minimaxMaxLoop state depth legalMoves (-infinityScore) alpha beta
        else
          minimaxMinLoop state depth legalMoves infinityScore alpha beta

/-- The maximizing loop of AIOpponent.minimax. -/
def minimaxMaxLoop (state : GameState) (childDepth : Nat) :
    List Move → Rat → Rat → Rat → Rat
  | [], maxEval, _, _ => maxEval
  | move :: rest, maxEval, alpha, beta =>
    let newState := execSearchMove move state
    let evaluation := minimax newState childDepth alpha beta false
    let maxEval' := max maxEval evaluation
    let alpha' := max alpha evaluation
    if beta ≤ alpha' then maxEval'
    else minimaxMaxLoop state childDepth rest maxEval' alpha' beta

/-- The minimizing loop of AIOpponent.minimax. -/
def minimaxMinLoop (state : GameState) (childDepth : Nat) :
    List Move → Rat → Rat → Rat → Rat
  | [], minEval, _, _ => minEval
  | move :: rest, minEval, alpha, beta =>
    let newState := execSearchMove move state
    let evaluation := minimax newState childDepth alpha beta true
    let minEval' := min minEval evaluation
    let beta' := min beta evaluation
    if beta' ≤ alpha then minEval'
    else minimaxMinLoop state childDepth rest minEval' alpha beta'

end

/-- AIOpponent.wouldResultInCheckmate: execute the move on a scratch state
and test checkmate for the opponent of the mover. -/
def wouldResultInCheckmate (move : Move) (state : GameState) : Bool :=
  let newState := execSearchMove move state
  let opponentColor : PieceColor := if move.piece.color = white then black else white
  isCheckmate opponentColor newState

/-- The root move scoring pass of AIOpponent.generateMove: minimax score for
each legal move of black, plus the easy-mode random perturbation
(rand i - 1/2) * 2/5 models (Math.random() - 0.5) * 0.4. -/
def scoredRootMoves (state : GameState) (config : AIConfig) (rand : Nat → Rat) :
    List (Move × Rat) :=
  let depth : Nat := if config.difficulty = easy then 3 else 4
  (getAllLegalMoves black state).enum.map fun im =>
    let newState := execSearchMove im.2 state
    let score := minimax newState (depth - 1) (-infinityScore) infinityScore false
    let score := if config.difficulty = easy then score + (rand im.1 - 1/2) * (2/5) else score
    (im.2, score)

/-- The stable descending sort of movesWithScores: the JavaScript comparator
(a, b) => b.score - a.score keeps a before b exactly when b.score <= a.score,
and Array.prototype.sort is stable. -/
def sortedRootMoves (state : GameState) (config : AIConfig) (rand : Nat → Rat) :
    List (Move × Rat) :=
  (scoredRootMoves state config rand).mergeSort fun a b => decide (b.2 ≤ a.2)

/-- AIOpponent.generateMove: none models the thrown error when black has no
legal move.  The final empty-candidate fallback of the source (a random
legal move) is unreachable, because the filter falls back to the full sorted
list whenever it would empty it; it is modelled as none. -/
def generateMove (state : GameState) (config : AIConfig) (rand : Nat → Rat) : Option Move :=
  let legalMoves := getAllLegalMoves black state
  if legalMoves = [] then none
  else
    let sorted := sortedRootMoves state config rand
    let candidateMoves :=
      if config.difficulty = easy then
        let nonCheckmate := sorted.filter fun ms => !(wouldResultInCheckmate ms.1 state)
        if nonCheckmate.length > 0 then nonCheckmate else sorted
      else
        if state.moveCount < 10 then
          let nonCheckmate := sorted.filter fun ms => !(wouldResultInCheckmate ms.1 state)
          if nonCheckmate.length > 0 then nonCheckmate else sorted
        else sorted
    match candidateMoves with
    | [] => none
    | best :: _ => some best.1

end AIOpponent

/-! ## Test fixtures

Hand-constructed states used as concrete inputs of the theorems below. -/

open ChessEngine PieceColor PieceType

/-- Build an 8x8 board from a list of pieces placed at their position
fields. -/
def boardOfPieces (ps : List Piece) : Board :=
  (List.range 8).map fun r => (List.range 8).map fun c =>
    ps.find? fun p => p.position == { row := (r : Int), col := (c : Int) }

/-- Piece constructor shorthand for fixtures. -/
def mkPiece (t : PieceType) (co : PieceColor) (r c : Int) (hm : Bool) : Piece :=
  { type := t, color := co, position := { row := r, col := c }, hasMoved := hm }

/-- The 8x8 well-formedness of a board, part of the data model (the Board
type of the source is a fixed 8x8 container). -/
def BoardWF (b : Board) : Prop :=
  b.length = 8 ∧ ∀ row ∈ b, row.length = 8

instance (b : Board) : Decidable (BoardWF b) := by
  unfold BoardWF; infer_instance

/-- A horizontal en-passant pin: the white pawn on e5 may capture the black
f5 pawn en passant according to the generator, but doing so clears rank 5
and exposes the white king on h5 to the black rook on a5. -/
def enPassantPinState : GameState :=
  { board := boardOfPieces
      [ mkPiece king black 0 0 true,
        mkPiece rook black 3 0 true,
        mkPiece pawn white 3 4 true,
        mkPiece pawn black 3 5 true,
        mkPiece king white 3 7 true ],
    currentTurn := white, moveHistory := [], capturedPieces := [],
    isCheck := false, isCheckmate := false, isStalemate := false, moveCount := 6,
    lastMove := some { fromPos := { row := 1, col := 5 }, toPos := { row := 3, col := 5 },
                       piece := mkPiece pawn black 1 5 false } }

/-- The en-passant capture move in enPassantPinState, with the en-passant
flag set as the executing caller would set it. -/
def enPassantPinMove : Move :=
  { fromPos := { row := 3, col := 4 }, toPos := { row := 2, col := 5 },
    piece := mkPiece pawn white 3 4 true, isEnPassant := true }

/-- A standard back-rank mate: black king cornered behind its own pawns,
white rook delivering check along the back rank. -/
def backRankMateState : GameState :=
  { board := boardOfPieces
      [ mkPiece rook white 0 0 true,
        mkPiece king black 0 7 true,
        mkPiece pawn black 1 6 false,
        mkPiece pawn black 1 7 false,
        mkPiece king white 7 0 true ],
    currentTurn := black, moveHistory := [], capturedPieces := [],
    isCheck := true, isCheckmate := false, isStalemate := false, moveCount := 9,
    lastMove := none }

/-- An unmoved white king standing on d1 rather than e1, with an unmoved
kingside rook and every square between them empty and unattacked. -/
def offKingCastleState : GameState :=
  { board := boardOfPieces
      [ mkPiece king white 7 3 false,
        mkPiece rook white 7 7 false,
        mkPiece king black 0 0 true ],
    currentTurn := white, moveHistory := [], capturedPieces := [],
    isCheck := false, isCheckmate := false, isStalemate := false, moveCount := 4,
    lastMove := none }

/-- A position where white may castle kingside. -/
def castleReadyState : GameState :=
  { board := boardOfPieces
      [ mkPiece king white 7 4 false,
        mkPiece rook white 7 7 false,
        mkPiece king black 0 0 true ],
    currentTurn := white, moveHistory := [], capturedPieces := [],
    isCheck := false, isCheckmate := false, isStalemate := false, moveCount := 4,
    lastMove := none }

/-- The legal kingside castling move of castleReadyState, flag set. -/
def castleReadyMove : Move :=
  { fromPos := { row := 7, col := 4 }, toPos := { row := 7, col := 6 },
    piece := mkPiece king white 7 4 false, isCastling := true }

/-- A state whose black side has pieces but no king. -/
def kinglessBlackState : GameState :=
  { board := boardOfPieces
      [ mkPiece rook black 0 0 true,
        mkPiece king white 7 7 true ],
    currentTurn := black, moveHistory := [], capturedPieces := [],
    isCheck := false, isCheckmate := false, isStalemate := false, moveCount := 4,
    lastMove := none }

/-- A small position with black to move, several legal black moves and at
least one that does not deliver mate. -/
def aiWitnessState : GameState :=
  { board := boardOfPieces
      [ mkPiece king black 0 0 true,
        mkPiece pawn black 6 0 true,
        mkPiece king white 4 7 true ],
    currentTurn := black, moveHistory := [], capturedPieces := [],
    isCheck := false, isCheckmate := false, isStalemate := false, moveCount := 4,
    lastMove := none }

/-! ## General lemmas about the engine -/

/-- Membership in the row-major coordinate list. -/
lemma mem_coords {r c : Int} : (r, c) ∈ coords ↔ 0 ≤ r ∧ r < 8 ∧ 0 ≤ c ∧ c < 8 := by
  unfold coords
  constructor
  · intro h
    obtain ⟨rn, hrn, h2⟩ := List.mem_flatMap.mp h
    obtain ⟨cn, hcn, h3⟩ := List.mem_map.mp h2
    rw [List.mem_range] at hrn hcn
    simp only [Prod.mk.injEq, Int.ofNat_eq_natCast] at h3
    obtain ⟨h4, h5⟩ := h3
    omega
  · rintro ⟨h1, h2, h3, h4⟩
    apply List.mem_flatMap.mpr
    refine ⟨r.toNat, List.mem_range.mpr (by omega), ?_⟩
    apply List.mem_map.mpr
    refine ⟨c.toNat, List.mem_range.mpr (by omega), ?_⟩
    simp only [Prod.mk.injEq, Int.ofNat_eq_natCast]
    constructor <;> omega

/-- A successful Javascript-style indexed read gives bounds and membership. -/
lemma idx?_eq_some {α : Type} {l : List α} {i : Int} {a : α} (h : idx? l i = some a) :
    0 ≤ i ∧ i.toNat < l.length ∧ a ∈ l := by
  unfold idx? at h
  split at h
  · rename_i hi
    exact ⟨hi, (List.get?_eq_some.mp h).1, List.get?_mem h⟩
  · simp at h

/-- A successful board read implies the coordinates are in range of the
board; with an 8x8 board they lie in the coordinate list. -/
lemma cellAt_some_mem_coords {b : Board} (hwf : BoardWF b) {r c : Int} {p : Piece}
    (h : cellAt b r c = some p) : (r, c) ∈ coords := by
  unfold cellAt at h
  cases hrow : idx? b r with
  | none => rw [hrow] at h; simp [Option.join] at h
  | some row =>
    rw [hrow, Option.some_bind] at h
    cases hcol : idx? row c with
    | none => rw [hcol] at h; simp [Option.join] at h
    | some cell =>
      rw [hcol] at h
      obtain ⟨hr0, hrl, hrm⟩ := idx?_eq_some hrow
      obtain ⟨hc0, hcl, -⟩ := idx?_eq_some hcol
      have h8 : b.length = 8 := hwf.1
      have hrow8 : row.length = 8 := hwf.2 row hrm
      rw [mem_coords]
      omega

/-- positionsEqual decides equality of positions. -/
lemma positionsEqual_iff {a b : Position} : positionsEqual a b = true ↔ a = b := by
  cases a; cases b
  simp [positionsEqual, Position.mk.injEq]

/-- The deep board copy is the identity. -/
lemma copyBoard_eq (b : Board) : copyBoard b = b := by
  unfold copyBoard
  have hcell : ∀ cell : Option Piece,
      (match cell with
       | some p => some { type := p.type, color := p.color,
                          position := { row := p.position.row, col := p.position.col },
                          hasMoved := p.hasMoved }
       | none => (none : Option Piece)) = cell := by
    intro cell
    cases cell with
    | none => rfl
    | some p => cases p with | mk t co pos hm => cases pos; rfl
  calc b.map (fun row => row.map fun cell =>
          match cell with
          | some p => some { type := p.type, color := p.color,
                             position := { row := p.position.row, col := p.position.col },
                             hasMoved := p.hasMoved }
          | none => none)
      = b.map (fun row => row.map id) := by
        simp only [hcell]
        rfl
    _ = b := by simp

/-- Membership characterization of getValidMoves. -/
lemma mem_getValidMoves {pos t : Position} {s : GameState} :
    t ∈ getValidMoves pos s ↔
      ∃ p, cellAt s.board pos.row pos.col = some p ∧ p.color = s.currentTurn ∧
        t ∈ getPseudoLegalMoves p s ∧ wouldLeaveKingInCheck pos t s = false := by
  unfold getValidMoves
  cases hcell : cellAt s.board pos.row pos.col with
  | none => simp
  | some p =>
    dsimp only
    by_cases hc : p.color = s.currentTurn
    · rw [if_neg (by simp [hc])]
      constructor
      · intro h
        have hf := List.mem_filter.mp h
        exact ⟨p, rfl, hc, hf.1, by simpa using hf.2⟩
      · rintro ⟨q, hq, hqc, hmem, hch⟩
        obtain rfl : p = q := by injection hq
        exact List.mem_filter.mpr ⟨hmem, by simpa using hch⟩
    · rw [if_pos (by simpa using hc)]
      simp only [List.not_mem_nil, false_iff]
      rintro ⟨q, hq, hqc, -⟩
      obtain rfl : p = q := by injection hq
      exact hc hqc

/-- Membership characterization of getAllLegalMoves. -/
lemma mem_getAllLegalMoves {m : Move} {color : PieceColor} {s : GameState} :
    m ∈ getAllLegalMoves color s ↔
      ∃ rc ∈ coords, ∃ p, cellAt s.board rc.1 rc.2 = some p ∧ p.color = color ∧
        m.toPos ∈ getValidMoves { row := rc.1, col := rc.2 } s ∧
        m = { fromPos := { row := rc.1, col := rc.2 }, toPos := m.toPos, piece := p } := by
  unfold getAllLegalMoves
  rw [List.mem_flatMap]
  constructor
  · rintro ⟨rc, hrc, hm⟩
    refine ⟨rc, hrc, ?_⟩
    cases hcell : cellAt s.board rc.1 rc.2 with
    | none => rw [hcell] at hm; simp at hm
    | some p =>
      rw [hcell] at hm
      dsimp only at hm
      by_cases hc : p.color = color
      · rw [if_pos hc] at hm
        obtain ⟨t, ht, rfl⟩ := List.mem_map.mp hm
        exact ⟨p, rfl, hc, ht, rfl⟩
      · rw [if_neg hc] at hm; simp at hm
  · rintro ⟨rc, hrc, p, hcell, hc, hval, hm⟩
    refine ⟨rc, hrc, ?_⟩
    rw [hcell]
    dsimp only
    rw [if_pos hc]
    exact List.mem_map.mpr ⟨m.toPos, hval, hm.symm⟩

/-- A move produced by getAllLegalMoves starts at an occupied square holding
its own piece field, and its destination is valid for that square. -/
lemma getAllLegalMoves_spec {m : Move} {color : PieceColor} {s : GameState}
    (h : m ∈ getAllLegalMoves color s) :
    cellAt s.board m.fromPos.row m.fromPos.col = some m.piece ∧ m.piece.color = color ∧
      m.toPos ∈ getValidMoves m.fromPos s := by
  obtain ⟨rc, hrc, p, hcell, hc, hval, hm⟩ := mem_getAllLegalMoves.mp h
  have hfrom : m.fromPos = { row := rc.1, col := rc.2 } := by rw [hm]
  have hpiece : m.piece = p := by rw [hm]
  rw [hfrom, hpiece]
  exact ⟨hcell, hc, hval⟩

/-- getAllLegalMoves is empty exactly when hasAnyLegalMoves is false. -/
lemma getAllLegalMoves_eq_nil_iff {color : PieceColor} {s : GameState} :
    getAllLegalMoves color s = [] ↔ hasAnyLegalMoves color s = false := by
  unfold getAllLegalMoves hasAnyLegalMoves
  rw [List.flatMap_eq_nil_iff, List.any_eq_false]
  constructor
  · intro h rc hrc
    have hz := h rc hrc
    cases hcell : cellAt s.board rc.1 rc.2 with
    | none => simp
    | some p =>
      rw [hcell] at hz
      dsimp only at hz ⊢
      by_cases hc : p.color = color
      · rw [if_pos hc] at hz
        have hnil := List.map_eq_nil_iff.mp hz
        simp [hnil]
      · simp [hc]
  · intro h rc hrc
    have hz := h rc hrc
    cases hcell : cellAt s.board rc.1 rc.2 with
    | none => rfl
    | some p =>
      rw [hcell] at hz
      dsimp only at hz ⊢
      by_cases hc : p.color = color
      · rw [if_pos hc, List.map_eq_nil_iff]
        simp only [Bool.and_eq_true, decide_eq_true_eq, not_and, gt_iff_lt] at hz
        have hlen := hz hc
        cases hl : getValidMoves { row := rc.1, col := rc.2 } s with
        | nil => rfl
        | cons a l => rw [hl] at hlen; simp at hlen
      · rw [if_neg hc]

/-- Reading a list updated by set yields either the written value, at the
written index, or the original value. -/
lemma idx?_set_or {α : Type} {l : List α} {i : Nat} {a x : α} {j : Int}
    (h : idx? (l.set i a) j = some x) :
    (x = a ∧ 0 ≤ j ∧ j.toNat = i) ∨ idx? l j = some x := by
  unfold idx? at h ⊢
  split at h
  case isFalse h0 => rw [if_neg h0]; right; exact h
  rename_i h0
  rw [if_pos h0]
  rw [List.get?_eq_getElem?, List.getElem?_set] at h
  by_cases hij : i = j.toNat
  · rw [if_pos hij] at h
    split at h
    · left
      injection h with h
      exact ⟨h.symm, h0, hij.symm⟩
    · simp at h
  · rw [if_neg hij] at h
    right
    rw [List.get?_eq_getElem?]
    exact h

/-- A cell of a board after setCell holds either the written value or the
value the underlying board already had there. -/
lemma cellAt_setCell_or {b : Board} {r c r' c' : Int} {v : Option Piece} {q : Piece}
    (h : cellAt (setCell b r c v) r' c' = some q) :
    v = some q ∨ cellAt b r' c' = some q := by
  unfold setCell at h
  split at h
  case isFalse => right; exact h
  cases hrow : b.get? r.toNat with
  | none => rw [hrow] at h; right; exact h
  | some row =>
    rw [hrow] at h
    unfold cellAt at h ⊢
    cases hrow2 : idx? (b.set r.toNat (row.set c.toNat v)) r' with
    | none => rw [hrow2] at h; simp [Option.join] at h
    | some row2 =>
      rw [hrow2, Option.some_bind] at h
      rcases idx?_set_or hrow2 with ⟨hre, h0r, hri⟩ | hidx
      · subst hre
        have hbrow : idx? b r' = some row := by
          unfold idx?
          rw [if_pos h0r, hri]
          exact hrow
        cases hcol : idx? (row.set c.toNat v) c' with
        | none => rw [hcol] at h; simp [Option.join] at h
        | some cell =>
          rw [hcol] at h
          simp only [Option.join] at h
          rcases idx?_set_or hcol with ⟨hce, -, -⟩ | hcidx
          · left
            rw [← hce]
            exact h
          · right
            rw [hbrow, Option.some_bind, hcidx]
            simpa [Option.join] using h
      · right
        rw [hidx, Option.some_bind]
        exact h

/-- The board produced by applyMoveToState, after collapsing the deep copy. -/
lemma applyMoveToState_board (f t : Position) (s : GameState) :
    (applyMoveToState f t s).board =
      match cellAt s.board f.row f.col with
      | none => s.board
      | some piece =>
        setCell (setCell s.board t.row t.col
          (some { piece with position := { row := t.row, col := t.col } })) f.row f.col none := by
  simp only [applyMoveToState, copyBoard_eq]
  cases cellAt s.board f.row f.col <;> rfl

/-- Simulating a plain relocation never creates a king: if a color has no
king on an 8x8 board, it still has none after applyMoveToState. -/
lemma findKing_none_applyMove {color : PieceColor} {s : GameState} (hwf : BoardWF s.board)
    {f t : Position} (h : findKing color s = none) :
    findKing color (applyMoveToState f t s) = none := by
  unfold findKing at h ⊢
  rw [Option.map_eq_none'] at h ⊢
  rw [List.find?_eq_none] at h ⊢
  intro rc hrc
  rw [applyMoveToState_board]
  cases hcell : cellAt s.board f.row f.col with
  | none => exact h rc hrc
  | some piece =>
    dsimp only
    cases hcell2 : cellAt
        (setCell (setCell s.board t.row t.col
          (some { piece with position := { row := t.row, col := t.col } }))
          f.row f.col none) rc.1 rc.2 with
    | none => simp
    | some q =>
      rcases cellAt_setCell_or hcell2 with hq | hq
      · simp at hq
      · rcases cellAt_setCell_or hq with hq2 | hq2
        · have hq3 : q = { piece with position := { row := t.row, col := t.col } } := by
            injection hq2 with hq2
            exact hq2.symm
          have hp := h (f.row, f.col) (cellAt_some_mem_coords hwf hcell)
          rw [hcell] at hp
          subst hq3
          simpa using hp
        · have hp := h rc hrc
          rw [hq2] at hp
          exact hp

/-- With the mover's king missing from an 8x8 board, every simulated move
fails the self-check test. -/
lemma wouldLeaveKingInCheck_of_no_king {s : GameState} (hwf : BoardWF s.board)
    (h : findKing s.currentTurn s = none) (f t : Position) :
    wouldLeaveKingInCheck f t s = true := by
  simp only [wouldLeaveKingInCheck]
  rw [findKing_none_applyMove hwf h]

/-! ## Claim theorems -/

/-- Claim C2: for every game state and color, isCheckmate implies isInCheck;
isStalemate implies the side to move is not in check; each implies the
corresponding legal move list is empty; and isCheckmate for the side to move
and isStalemate never hold together. -/
theorem c2_status_consistency (s : GameState) (color : PieceColor) :
    (isCheckmate color s = true → isInCheck color s = true) ∧
    (isStalemate s = true → isInCheck s.currentTurn s = false) ∧
    (isCheckmate color s = true → getAllLegalMoves color s = []) ∧
    (isStalemate s = true → getAllLegalMoves s.currentTurn s = []) ∧
    ¬(isCheckmate s.currentTurn s = true ∧ isStalemate s = true) := by
  have hcm : ∀ c, isCheckmate c s = true → isInCheck c s = true := by
    intro c h
    by_cases hic : isInCheck c s = true
    · exact hic
    · exfalso
      unfold isCheckmate at h
      rw [Bool.not_eq_true] at hic
      rw [hic] at h
      simp at h
  have hcm2 : ∀ c, isCheckmate c s = true → getAllLegalMoves c s = [] := by
    intro c h
    have hic := hcm c h
    unfold isCheckmate at h
    rw [hic] at h
    simp only [Bool.not_true, Bool.false_eq_true, if_false, Bool.not_eq_true'] at h
    exact getAllLegalMoves_eq_nil_iff.mpr h
  have hst : isStalemate s = true → isInCheck s.currentTurn s = false := by
    intro h
    by_cases hic : isInCheck s.currentTurn s = true
    · exfalso
      simp only [isStalemate] at h
      rw [hic] at h
      simp at h
    · exact Bool.not_eq_true _ ▸ hic
  have hst2 : isStalemate s = true → getAllLegalMoves s.currentTurn s = [] := by
    intro h
    have hic := hst h
    simp only [isStalemate] at h
    rw [hic] at h
    simp only [Bool.false_eq_true, if_false, Bool.not_eq_true'] at h
    exact getAllLegalMoves_eq_nil_iff.mpr h
  refine ⟨hcm color, hst, hcm2 color, hst2, ?_⟩
  rintro ⟨h1, h2⟩
  rw [hcm s.currentTurn h1] at hst
  simpa using hst h2

/-- Witness for C2 at a concrete back-rank mate. -/
theorem c2_status_consistency_witness :
    isCheckmate black backRankMateState = true ∧
    isInCheck black backRankMateState = true ∧
    getAllLegalMoves black backRankMateState = [] := by
  have h := c2_status_consistency backRankMateState black
  have hm : isCheckmate black backRankMateState = true := by decide
  exact ⟨hm, h.1 hm, h.2.2.1 hm⟩

/-- Executing a move whose source square is occupied succeeds, flips the
turn, and increments the move counter. -/
lemma executeMove_of_piece {m : Move} {s : GameState} {p : Piece}
    (h : cellAt s.board m.fromPos.row m.fromPos.col = some p) :
    ∃ s4, executeMove m s = some s4 ∧
      s4.currentTurn = (if s.currentTurn = white then black else white) ∧
      s4.moveCount = s.moveCount + 1 := by
  simp only [executeMove, copyBoard_eq]
  rw [h]
  exact ⟨_, rfl, rfl, rfl⟩

/-- Claim C3: executing any legal move yields a state whose turn differs
from the input turn and whose move counter is one larger; the input state is
a value and is not modified (the source deep-copies the board and rebuilds
every updated container before writing). -/
theorem c3_execute_flips_turn (s : GameState) (m : Move)
    (h : m ∈ getAllLegalMoves s.currentTurn s) :
    ∃ s4, executeMove m s = some s4 ∧ s4.currentTurn ≠ s.currentTurn ∧
      s4.moveCount = s.moveCount + 1 := by
  obtain ⟨hcell, -, -⟩ := getAllLegalMoves_spec h
  obtain ⟨s4, h1, h2, h3⟩ := executeMove_of_piece hcell
  refine ⟨s4, h1, ?_, h3⟩
  rw [h2]
  cases s.currentTurn <;> simp

/-- A concrete legal king move in castleReadyState. -/
def kingStepMove : Move :=
  { fromPos := { row := 7, col := 4 }, toPos := { row := 7, col := 5 },
    piece := mkPiece king white 7 4 false }

/-- Witness for C3 at a concrete state and legal move. -/
theorem c3_execute_flips_turn_witness :
    ((executeMove kingStepMove castleReadyState).getD castleReadyState).currentTurn ≠
      castleReadyState.currentTurn ∧
    ((executeMove kingStepMove castleReadyState).getD castleReadyState).moveCount =
      castleReadyState.moveCount + 1 := by
  obtain ⟨s4, h1, h2, h3⟩ := c3_execute_flips_turn castleReadyState kingStepMove (by decide)
  rw [h1]
  exact ⟨h2, h3⟩

/-- Claim C6: the en-passant destination list of a pawn is the singleton
square behind the opposing pawn exactly under the gating conditions of the
claim, and every generated en-passant destination is part of the pawn
pseudo-legal move set. -/
theorem c6_en_passant_gating (pawn0 : Piece) (s : GameState) (dest : Position) :
    (dest ∈ getEnPassantMoves pawn0 s ↔
      pawn0.position.row = (if pawn0.color = white then 3 else 4) ∧
      ∃ lm, s.lastMove = some lm ∧ lm.piece.type = PieceType.pawn ∧
        lm.piece.color ≠ pawn0.color ∧ (lm.toPos.row - lm.fromPos.row).natAbs = 2 ∧
        (lm.toPos.col - pawn0.position.col).natAbs = 1 ∧
        lm.toPos.row = pawn0.position.row ∧
        dest = { row := pawn0.position.row + (if pawn0.color = white then -1 else 1),
                 col := lm.toPos.col }) ∧
    (dest ∈ getEnPassantMoves pawn0 s → dest ∈ getPawnMoves pawn0 s) := by
  constructor
  · unfold getEnPassantMoves
    by_cases hr : pawn0.position.row = (if pawn0.color = white then 3 else 4)
    case neg =>
      rw [if_pos (by simpa using hr)]
      simp only [List.not_mem_nil, false_iff]
      rintro ⟨h1, -⟩
      exact hr h1
    case pos =>
      rw [if_neg (by simpa using hr)]
      cases hlm : s.lastMove with
      | none =>
        simp only [List.not_mem_nil, false_iff]
        rintro ⟨-, lm, hlm2, -⟩
        exact Option.noConfusion hlm2
      | some lm =>
        dsimp only
        by_cases h2 : lm.piece.type ≠ PieceType.pawn ∨ lm.piece.color = pawn0.color
        · rw [if_pos h2]
          simp only [List.not_mem_nil, false_iff]
          rintro ⟨-, lm2, hlm2, hA, hB, -⟩
          injection hlm2 with he
          subst he
          rcases h2 with h2 | h2
          exacts [h2 hA, hB h2]
        · rw [if_neg h2]
          push_neg at h2
          obtain ⟨hA, hB⟩ := h2
          by_cases h3 : (lm.toPos.row - lm.fromPos.row).natAbs = 2
          case neg =>
            rw [if_pos (by simpa using h3)]
            simp only [List.not_mem_nil, false_iff]
            rintro ⟨-, lm2, hlm2, -, -, h4, -⟩
            injection hlm2 with he
            subst he
            exact h3 h4
          case pos =>
            rw [if_neg (by simpa using h3)]
            by_cases h4 : (lm.toPos.col - pawn0.position.col).natAbs = 1 ∧
                lm.toPos.row = pawn0.position.row
            · rw [if_pos h4]
              simp only [List.mem_singleton]
              constructor
              · intro hd
                exact ⟨hr, lm, rfl, hA, hB, h3, h4.1, h4.2, hd⟩
              · rintro ⟨-, lm2, hlm2, -, -, -, -, -, hd⟩
                injection hlm2 with he
                subst he
                exact hd
            · rw [if_neg h4]
              simp only [List.not_mem_nil, false_iff]
              rintro ⟨-, lm2, hlm2, -, -, -, h5, h6, -⟩
              injection hlm2 with he
              subst he
              exact h4 ⟨h5, h6⟩
  · intro h
    unfold getPawnMoves
    exact List.mem_append.mpr (Or.inr h)

/-- Witness for C6: the en-passant capture of enPassantPinState is generated
and sits in the pawn pseudo-legal move set. -/
theorem c6_en_passant_gating_witness :
    ({ row := 2, col := 5 } : Position) ∈
      getEnPassantMoves (mkPiece pawn white 3 4 true) enPassantPinState ∧
    ({ row := 2, col := 5 } : Position) ∈
      getPawnMoves (mkPiece pawn white 3 4 true) enPassantPinState := by
  have h := c6_en_passant_gating (mkPiece pawn white 3 4 true) enPassantPinState
    { row := 2, col := 5 }
  have hm := h.1.mpr ⟨by decide,
    { fromPos := { row := 1, col := 5 }, toPos := { row := 3, col := 5 },
      piece := mkPiece pawn black 1 5 false },
    rfl, by decide, by decide, by decide, by decide, by decide, by decide⟩
  exact ⟨hm, h.2 hm⟩

/-- Claim C10: a side with no king on the board is never in check, fails the
self-check filter on every candidate move when on turn, has no valid move
from any of its occupied squares, has an empty legal move list, and is
classified as stalemated when on turn. -/
theorem c10_kingless_side_has_no_moves (s : GameState) (hwf : BoardWF s.board)
    (color : PieceColor) (h : findKing color s = none) :
    isInCheck color s = false ∧
    (color = s.currentTurn → ∀ f t : Position, wouldLeaveKingInCheck f t s = true) ∧
    (∀ pos p, cellAt s.board pos.row pos.col = some p → p.color = color →
      getValidMoves pos s = []) ∧
    getAllLegalMoves color s = [] ∧
    (color = s.currentTurn → isStalemate s = true) := by
  have hic : isInCheck color s = false := by
    unfold isInCheck
    rw [h]
  have hwlk : color = s.currentTurn → ∀ f t : Position,
      wouldLeaveKingInCheck f t s = true := by
    rintro rfl f t
    exact wouldLeaveKingInCheck_of_no_king hwf h f t
  have hgv : ∀ pos p, cellAt s.board pos.row pos.col = some p → p.color = color →
      getValidMoves pos s = [] := by
    intro pos p hcell hpc
    unfold getValidMoves
    rw [hcell]
    dsimp only
    by_cases hturn : p.color = s.currentTurn
    · rw [if_neg (by simpa using hturn)]
      apply List.filter_eq_nil_iff.mpr
      intro t ht
      rw [hwlk (hpc ▸ hturn) pos t]
      simp
    · rw [if_pos (by simpa using hturn)]
  have hall : getAllLegalMoves color s = [] := by
    rw [List.eq_nil_iff_forall_not_mem]
    intro m hm
    obtain ⟨hcell, hc, hval⟩ := getAllLegalMoves_spec hm
    rw [hgv m.fromPos m.piece hcell hc] at hval
    simp at hval
  refine ⟨hic, hwlk, hgv, hall, ?_⟩
  intro hcur
  simp only [isStalemate]
  rw [← hcur, hic]
  simp only [Bool.false_eq_true, if_false, Bool.not_eq_true']
  exact getAllLegalMoves_eq_nil_iff.mp hall

/-- Witness for C10 at a concrete kingless state. -/
theorem c10_kingless_side_witness :
    isInCheck black kinglessBlackState = false ∧
    wouldLeaveKingInCheck { row := 0, col := 0 } { row := 0, col := 1 }
      kinglessBlackState = true ∧
    getValidMoves { row := 0, col := 0 } kinglessBlackState = [] ∧
    getAllLegalMoves black kinglessBlackState = [] ∧
    isStalemate kinglessBlackState = true := by
  obtain ⟨h1, h2, h3, h4, h5⟩ := c10_kingless_side_has_no_moves kinglessBlackState
    (by decide) black (by decide)
  exact ⟨h1, h2 rfl _ _, h3 { row := 0, col := 0 } (mkPiece rook black 0 0 true)
    (by decide) rfl, h4, h5 rfl⟩

/-- Scanning a destination list with positionsEqual decides membership. -/
lemma any_positionsEqual_iff {l : List Position} {t : Position} :
    (l.any fun vm => positionsEqual vm t) = true ↔ t ∈ l := by
  rw [List.any_eq_true]
  constructor
  · rintro ⟨x, hx, hxt⟩
    rwa [positionsEqual_iff.mp hxt] at hx
  · intro h
    exact ⟨t, h, positionsEqual_iff.mpr rfl⟩

/-- Characterization of isValidMove in terms of the board facts it checks. -/
lemma isValidMove_char (move : Move) (s : GameState) :
    isValidMove move s = true ↔
      ∃ p, cellAt s.board move.fromPos.row move.fromPos.col = some p ∧
        p.color = s.currentTurn ∧ p.type = move.piece.type ∧ p.color = move.piece.color ∧
        move.toPos ∈ getValidMoves move.fromPos s ∧
        (move.isCastling = true →
          p.type = PieceType.king ∧ (move.toPos.col - move.fromPos.col).natAbs = 2) ∧
        (move.isEnPassant = true →
          p.type = PieceType.pawn ∧ move.toPos.col ≠ move.fromPos.col ∧
          cellAt s.board move.toPos.row move.toPos.col = none) ∧
        (move.promotionType.isSome = true →
          isPawnPromotion move.fromPos move.toPos s = true) := by
  unfold isValidMove
  cases hcell : cellAt s.board move.fromPos.row move.fromPos.col with
  | none => simp
  | some p =>
    dsimp only
    by_cases h1 : p.color = s.currentTurn
    case neg =>
      rw [if_pos (by simpa using h1)]
      simp only [Bool.false_eq_true, false_iff]
      rintro ⟨q, hq, hqc, -⟩
      injection hq with hq
      exact h1 (hq ▸ hqc)
    rw [if_neg (by simpa using h1)]
    by_cases h2 : p.type ≠ move.piece.type ∨ p.color ≠ move.piece.color
    · rw [if_pos h2]
      simp only [Bool.false_eq_true, false_iff]
      rintro ⟨q, hq, -, hqt, hqc, -⟩
      injection hq with hq
      subst hq
      rcases h2 with h2 | h2
      exacts [h2 hqt, h2 hqc]
    · rw [if_neg h2]
      push_neg at h2
      obtain ⟨h2t, h2c⟩ := h2
      by_cases h3 : move.toPos ∈ getValidMoves move.fromPos s
      case neg =>
        have hany : (getValidMoves move.fromPos s).any
            (fun vm => positionsEqual vm move.toPos) = false := by
          rw [← Bool.not_eq_true, any_positionsEqual_iff]
          exact h3
        rw [if_pos (by rw [hany]; rfl)]
        simp only [Bool.false_eq_true, false_iff]
        rintro ⟨q, hq, -, -, -, hval, -⟩
        injection hq with hq
        exact h3 hval
      case pos =>
        have hany : (getValidMoves move.fromPos s).any
            (fun vm => positionsEqual vm move.toPos) = true :=
          any_positionsEqual_iff.mpr h3
        rw [if_neg (by rw [hany]; simp)]
        cases hcast : move.isCastling <;> cases hep : move.isEnPassant <;>
          cases hpo : move.promotionType <;>
          by_cases hA : p.type = PieceType.king ∧ (move.toPos.col - move.fromPos.col).natAbs = 2 <;>
          by_cases hB : p.type = PieceType.pawn ∧ move.toPos.col ≠ move.fromPos.col ∧
            cellAt s.board move.toPos.row move.toPos.col = none <;>
          simp_all

/-- The legal-entry part of claim C4: a matching entry of getAllLegalMoves
exists exactly when a piece of the side to move stands at the source square
and the destination is among its legal destinations. -/
lemma exists_legal_entry_iff {move : Move} {s : GameState} (hwf : BoardWF s.board) :
    (∃ e ∈ getAllLegalMoves s.currentTurn s,
        e.fromPos = move.fromPos ∧ e.toPos = move.toPos ∧
        e.piece.type = move.piece.type ∧ e.piece.color = move.piece.color) ↔
      ∃ p, cellAt s.board move.fromPos.row move.fromPos.col = some p ∧
        p.color = s.currentTurn ∧ p.type = move.piece.type ∧ p.color = move.piece.color ∧
        move.toPos ∈ getValidMoves move.fromPos s := by
  constructor
  · rintro ⟨e, he, hef, het, hept, hepc⟩
    obtain ⟨hcell, hc, hval⟩ := getAllLegalMoves_spec he
    rw [hef] at hcell hval
    rw [het] at hval
    exact ⟨e.piece, hcell, hc, hept, hepc, hval⟩
  · rintro ⟨p, hcell, hc, hpt, hpc, hval⟩
    refine ⟨{ fromPos := move.fromPos, toPos := move.toPos, piece := p }, ?_, rfl, rfl, hpt, hpc⟩
    apply mem_getAllLegalMoves.mpr
    refine ⟨(move.fromPos.row, move.fromPos.col), cellAt_some_mem_coords hwf hcell,
      p, hcell, hc, ?_, rfl⟩
    exact hval

/-- Claim C4: isValidMove accepts exactly the moves whose source, destination
and piece type and color match an entry of getAllLegalMoves for the side to
move, and whose asserted special-move flags match board facts; it is a total
boolean function, so it rejects everything else without throwing. -/
theorem c4_isValidMove_iff (move : Move) (s : GameState) (hwf : BoardWF s.board) :
    isValidMove move s = true ↔
      ((∃ e ∈ getAllLegalMoves s.currentTurn s,
          e.fromPos = move.fromPos ∧ e.toPos = move.toPos ∧
          e.piece.type = move.piece.type ∧ e.piece.color = move.piece.color) ∧
       (move.isCastling = true →
          ∃ p, cellAt s.board move.fromPos.row move.fromPos.col = some p ∧
            p.type = PieceType.king ∧ (move.toPos.col - move.fromPos.col).natAbs = 2) ∧
       (move.isEnPassant = true →
          ∃ p, cellAt s.board move.fromPos.row move.fromPos.col = some p ∧
            p.type = PieceType.pawn ∧ move.toPos.col ≠ move.fromPos.col ∧
            cellAt s.board move.toPos.row move.toPos.col = none) ∧
       (move.promotionType.isSome = true →
          isPawnPromotion move.fromPos move.toPos s = true)) := by
  rw [isValidMove_char]
  constructor
  · rintro ⟨p, hcell, hc, hpt, hpc, hval, hcast, hep, hpo⟩
    refine ⟨(exists_legal_entry_iff hwf).mpr ⟨p, hcell, hc, hpt, hpc, hval⟩, ?_, ?_, hpo⟩
    · intro h
      exact ⟨p, hcell, (hcast h).1, (hcast h).2⟩
    · intro h
      exact ⟨p, hcell, (hep h).1, (hep h).2.1, (hep h).2.2⟩
  · rintro ⟨hmem, hcast, hep, hpo⟩
    obtain ⟨p, hcell, hc, hpt, hpc, hval⟩ := (exists_legal_entry_iff hwf).mp hmem
    refine ⟨p, hcell, hc, hpt, hpc, hval, ?_, ?_, hpo⟩
    · intro h
      obtain ⟨q, hq, hqt, hqd⟩ := hcast h
      rw [hcell] at hq
      injection hq with hq
      exact ⟨hq ▸ hqt, hqd⟩
    · intro h
      obtain ⟨q, hq, hqt, hqd, hqe⟩ := hep h
      rw [hcell] at hq
      injection hq with hq
      exact ⟨hq ▸ hqt, hqd, hqe⟩

/-- Witness for C4: the flagged castling move of castleReadyState is
accepted, and the corresponding legal entry and board facts hold. -/
theorem c4_isValidMove_witness :
    isValidMove castleReadyMove castleReadyState = true ∧
    ((∃ e ∈ getAllLegalMoves castleReadyState.currentTurn castleReadyState,
        e.fromPos = castleReadyMove.fromPos ∧ e.toPos = castleReadyMove.toPos ∧
        e.piece.type = castleReadyMove.piece.type ∧
        e.piece.color = castleReadyMove.piece.color) ∧
     (castleReadyMove.isCastling = true →
        ∃ p, cellAt castleReadyState.board castleReadyMove.fromPos.row
            castleReadyMove.fromPos.col = some p ∧
          p.type = PieceType.king ∧
          (castleReadyMove.toPos.col - castleReadyMove.fromPos.col).natAbs = 2) ∧
     (castleReadyMove.isEnPassant = true →
        ∃ p, cellAt castleReadyState.board castleReadyMove.fromPos.row
            castleReadyMove.fromPos.col = some p ∧
          p.type = PieceType.pawn ∧ castleReadyMove.toPos.col ≠ castleReadyMove.fromPos.col ∧
          cellAt castleReadyState.board castleReadyMove.toPos.row
            castleReadyMove.toPos.col = none) ∧
     (castleReadyMove.promotionType.isSome = true →
        isPawnPromotion castleReadyMove.fromPos castleReadyMove.toPos castleReadyState =
          true)) := by
  have hv : isValidMove castleReadyMove castleReadyState = true := by decide
  exact ⟨hv, (c4_isValidMove_iff castleReadyMove castleReadyState (by decide)).mp hv⟩

/-- The back rank of a color as used by getCastlingMoves. -/
def backRankOf (c : PieceColor) : Int := if c = white then 7 else 0

/-- The kingside conditions of getCastlingMoves: unmoved same-color rook on
column 7, empty f and g squares, unattacked f transit square. -/
def kingsideCastleOK (king0 : Piece) (s : GameState) : Prop :=
  ∃ rk, cellAt s.board (backRankOf king0.color) 7 = some rk ∧
    rk.type = PieceType.rook ∧ rk.color = king0.color ∧ rk.hasMoved = false ∧
    cellAt s.board (backRankOf king0.color) 5 = none ∧
    cellAt s.board (backRankOf king0.color) 6 = none ∧
    isPositionUnderAttack { row := backRankOf king0.color, col := 5 } king0.color s = false

/-- The queenside conditions of getCastlingMoves: unmoved same-color rook on
column 0, empty b, c and d squares, unattacked d transit square. -/
def queensideCastleOK (king0 : Piece) (s : GameState) : Prop :=
  ∃ rk, cellAt s.board (backRankOf king0.color) 0 = some rk ∧
    rk.type = PieceType.rook ∧ rk.color = king0.color ∧ rk.hasMoved = false ∧
    cellAt s.board (backRankOf king0.color) 1 = none ∧
    cellAt s.board (backRankOf king0.color) 2 = none ∧
    cellAt s.board (backRankOf king0.color) 3 = none ∧
    isPositionUnderAttack { row := backRankOf king0.color, col := 3 } king0.color s = false

/-- Full characterization of the castling destination list. -/
lemma mem_getCastlingMoves {king0 : Piece} {s : GameState} {dest : Position} :
    dest ∈ getCastlingMoves king0 s ↔
      king0.hasMoved = false ∧
      isPositionUnderAttack king0.position king0.color s = false ∧
      king0.position = { row := backRankOf king0.color, col := 4 } ∧
      ((dest = { row := backRankOf king0.color, col := 6 } ∧ kingsideCastleOK king0 s) ∨
       (dest = { row := backRankOf king0.color, col := 2 } ∧ queensideCastleOK king0 s)) := by
  unfold getCastlingMoves
  by_cases h1 : king0.hasMoved = true
  · rw [if_pos h1]
    simp [h1]
  rw [if_neg h1]
  have h1f : king0.hasMoved = false := by simpa using h1
  by_cases h2 : isPositionUnderAttack king0.position king0.color s = true
  · rw [if_pos h2]
    simp [h1f, h2]
  rw [if_neg h2]
  have h2f : isPositionUnderAttack king0.position king0.color s = false := by simpa using h2
  dsimp only
  by_cases h3 : king0.position.row ≠ (if king0.color = white then 7 else 0) ∨
      king0.position.col ≠ 4
  · rw [if_pos h3]
    simp only [List.not_mem_nil, false_iff]
    rintro ⟨-, -, hpos, -⟩
    rcases h3 with h3 | h3
    · exact h3 (by rw [hpos]; rfl)
    · exact h3 (by rw [hpos])
  · rw [if_neg h3]
    push_neg at h3
    obtain ⟨h3r, h3c⟩ := h3
    have hpos : king0.position = { row := backRankOf king0.color, col := 4 } := by
      cases hp : king0.position with
      | mk pr pc =>
        rw [hp] at h3r h3c
        simp only at h3r h3c
        rw [backRankOf, h3r, h3c]
    rw [List.mem_append]
    have hks : (dest ∈
        match cellAt s.board (if king0.color = white then 7 else 0) 7 with
        | some kingsideRook =>
          if kingsideRook.type = PieceType.rook ∧ kingsideRook.color = king0.color ∧
              kingsideRook.hasMoved = false then
            if cellAt s.board (if king0.color = white then 7 else 0) 5 = none ∧
                cellAt s.board (if king0.color = white then 7 else 0) 6 = none then
              if isPositionUnderAttack
                  { row := if king0.color = white then 7 else 0, col := 5 } king0.color s then
                []
              else ([{ row := if king0.color = white then 7 else 0, col := 6 }] : List Position)
            else []
          else []
        | none => []) ↔
        (dest = { row := backRankOf king0.color, col := 6 } ∧ kingsideCastleOK king0 s) := by
      unfold kingsideCastleOK backRankOf
      cases hk : cellAt s.board (if king0.color = white then 7 else 0) 7 with
      | none =>
        simp only [List.not_mem_nil, false_iff]
        rintro ⟨-, rk, hrk, -⟩
        exact Option.noConfusion hrk
      | some rk =>
        dsimp only
        by_cases h4 : rk.type = PieceType.rook ∧ rk.color = king0.color ∧ rk.hasMoved = false
        case neg =>
          rw [if_neg h4]
          simp only [List.not_mem_nil, false_iff]
          rintro ⟨-, rk2, hrk2, ht, hc, hm, -⟩
          injection hrk2 with he
          subst he
          exact h4 ⟨ht, hc, hm⟩
        rw [if_pos h4]
        by_cases h5 : cellAt s.board (if king0.color = white then 7 else 0) 5 = none ∧
            cellAt s.board (if king0.color = white then 7 else 0) 6 = none
        case neg =>
          rw [if_neg h5]
          simp only [List.not_mem_nil, false_iff]
          rintro ⟨-, rk2, hrk2, -, -, -, he5, he6, -⟩
          exact h5 ⟨he5, he6⟩
        rw [if_pos h5]
        by_cases h6 : isPositionUnderAttack
            { row := if king0.color = white then 7 else 0, col := 5 } king0.color s = true
        · rw [if_pos h6]
          simp only [List.not_mem_nil, false_iff]
          rintro ⟨-, rk2, hrk2, -, -, -, -, -, ha⟩
          rw [h6] at ha
          exact Bool.noConfusion ha
        · rw [if_neg h6]
          simp only [List.mem_singleton]
          constructor
          · intro hd
            exact ⟨hd, rk, rfl, h4.1, h4.2.1, h4.2.2, h5.1, h5.2, by simpa using h6⟩
          · rintro ⟨hd, -⟩
            exact hd
    have hqs : (dest ∈
        match cellAt s.board (if king0.color = white then 7 else 0) 0 with
        | some queensideRook =>
          if queensideRook.type = PieceType.rook ∧ queensideRook.color = king0.color ∧
              queensideRook.hasMoved = false then
            if cellAt s.board (if king0.color = white then 7 else 0) 1 = none ∧
                cellAt s.board (if king0.color = white then 7 else 0) 2 = none ∧
                cellAt s.board (if king0.color = white then 7 else 0) 3 = none then
              if isPositionUnderAttack
                  { row := if king0.color = white then 7 else 0, col := 3 } king0.color s then
                []
              else ([{ row := if king0.color = white then 7 else 0, col := 2 }] : List Position)
            else []
          else []
        | none => []) ↔
        (dest = { row := backRankOf king0.color, col := 2 } ∧ queensideCastleOK king0 s) := by
      unfold queensideCastleOK backRankOf
      cases hk : cellAt s.board (if king0.color = white then 7 else 0) 0 with
      | none =>
        simp only [List.not_mem_nil, false_iff]
        rintro ⟨-, rk, hrk, -⟩
        exact Option.noConfusion hrk
      | some rk =>
        dsimp only
        by_cases h4 : rk.type = PieceType.rook ∧ rk.color = king0.color ∧ rk.hasMoved = false
        case neg =>
          rw [if_neg h4]
          simp only [List.not_mem_nil, false_iff]
          rintro ⟨-, rk2, hrk2, ht, hc, hm, -⟩
          injection hrk2 with he
          subst he
          exact h4 ⟨ht, hc, hm⟩
        rw [if_pos h4]
        by_cases h5 : cellAt s.board (if king0.color = white then 7 else 0) 1 = none ∧
            cellAt s.board (if king0.color = white then 7 else 0) 2 = none ∧
            cellAt s.board (if king0.color = white then 7 else 0) 3 = none
        case neg =>
          rw [if_neg h5]
          simp only [List.not_mem_nil, false_iff]
          rintro ⟨-, rk2, hrk2, -, -, -, he1, he2, he3, -⟩
          exact h5 ⟨he1, he2, he3⟩
        rw [if_pos h5]
        by_cases h6 : isPositionUnderAttack
            { row := if king0.color = white then 7 else 0, col := 3 } king0.color s = true
        · rw [if_pos h6]
          simp only [List.not_mem_nil, false_iff]
          rintro ⟨-, rk2, hrk2, -, -, -, -, -, -, ha⟩
          rw [h6] at ha
          exact Bool.noConfusion ha
        · rw [if_neg h6]
          simp only [List.mem_singleton]
          constructor
          · intro hd
            exact ⟨hd, rk, rfl, h4.1, h4.2.1, h4.2.2, h5.1, h5.2.1, h5.2.2,
              by simpa using h6⟩
          · rintro ⟨hd, -⟩
            exact hd
    rw [hks, hqs]
    constructor
    · intro h
      exact ⟨h1f, h2f, hpos, h⟩
    · rintro ⟨-, -, -, h⟩
      exact h

/-- Every offset-generated destination is the piece position plus one of the
offsets. -/
lemma mem_offsetMoves_imp {p : Piece} {offs : List (Int × Int)} {s : GameState} {t : Position}
    (h : t ∈ offsetMoves p offs s) :
    ∃ off ∈ offs, t.row = p.position.row + off.1 ∧ t.col = p.position.col + off.2 := by
  unfold offsetMoves at h
  obtain ⟨off, hoff, heq⟩ := List.mem_filterMap.mp h
  refine ⟨off, hoff, ?_⟩
  dsimp only at heq
  split at heq
  · split at heq
    · split at heq
      · injection heq with heq
        rw [← heq]
        exact ⟨rfl, rfl⟩
      · exact Option.noConfusion heq
    · injection heq with heq
      rw [← heq]
      exact ⟨rfl, rfl⟩
  · exact Option.noConfusion heq

/-- The king offsets move at most one column. -/
lemma kingOffsets_col_bound : ∀ off ∈ kingOffsets, off.2 = -1 ∨ off.2 = 0 ∨ off.2 = 1 := by
  decide

/-- Counterexample to claim C5 as stated: in offKingCastleState the white
king is unmoved with an unmoved kingside rook, every square strictly between
them is empty, neither the king square nor the square the king would pass
through is attacked, yet the destination two files toward the rook is not
among the king legal moves, because the king does not stand on column 4. -/
theorem c5_castling_counterexample :
    cellAt offKingCastleState.board 7 3 = some (mkPiece king white 7 3 false) ∧
    (mkPiece king white 7 3 false).hasMoved = false ∧
    cellAt offKingCastleState.board 7 7 = some (mkPiece rook white 7 7 false) ∧
    (mkPiece rook white 7 7 false).hasMoved = false ∧
    cellAt offKingCastleState.board 7 4 = none ∧
    cellAt offKingCastleState.board 7 5 = none ∧
    cellAt offKingCastleState.board 7 6 = none ∧
    isPositionUnderAttack { row := 7, col := 3 } white offKingCastleState = false ∧
    isPositionUnderAttack { row := 7, col := 4 } white offKingCastleState = false ∧
    offKingCastleState.currentTurn = white ∧
    ({ row := 7, col := 5 } : Position) ∉
      getValidMoves { row := 7, col := 3 } offKingCastleState := by
  decide

/-- Claim C5 as amended: for a king of the side to move, the destination two
files away appears among its legal moves exactly when the king is unmoved and
stands on column 4 of its back rank, its square is unattacked, the
corresponding rook conditions of the claim hold for that side, and moving the
king there passes the post-move self-check filter. -/
theorem c5_castling_gating_amended (s : GameState) (pos : Position) (k : Piece) (d : Int)
    (hcell : cellAt s.board pos.row pos.col = some k) (hk : k.type = PieceType.king)
    (hturn : k.color = s.currentTurn) (hppos : k.position = pos) (hd : d = 2 ∨ d = -2) :
    ({ row := pos.row, col := pos.col + d } : Position) ∈ getValidMoves pos s ↔
      (k.hasMoved = false ∧
       isPositionUnderAttack pos k.color s = false ∧
       pos = { row := backRankOf k.color, col := 4 } ∧
       ((d = 2 ∧ kingsideCastleOK k s) ∨ (d = -2 ∧ queensideCastleOK k s)) ∧
       wouldLeaveKingInCheck pos { row := pos.row, col := pos.col + d } s = false) := by
  rw [mem_getValidMoves]
  constructor
  · rintro ⟨p, hp, hpc, hmem, hch⟩
    obtain rfl : k = p := by
      rw [hcell] at hp
      injection hp
    unfold getPseudoLegalMoves at hmem
    rw [hk] at hmem
    dsimp only at hmem
    unfold getKingMoves at hmem
    rcases List.mem_append.mp hmem with hbasic | hcastle
    · exfalso
      obtain ⟨off, hoff, -, hc⟩ := mem_offsetMoves_imp hbasic
      rw [hppos] at hc
      simp only at hc
      rcases kingOffsets_col_bound off hoff with h | h | h <;> omega
    · obtain ⟨hm1, hm2, hm3, hside⟩ := mem_getCastlingMoves.mp hcastle
      rw [hppos] at hm2 hm3
      refine ⟨hm1, hm2, hm3, ?_, hch⟩
      rcases hside with ⟨hdest, hok⟩ | ⟨hdest, hok⟩
      · left
        refine ⟨?_, hok⟩
        have hrow : pos.col + d = 6 := congrArg Position.col hdest
        have hcol4 : pos.col = 4 := congrArg Position.col hm3
        omega
      · right
        refine ⟨?_, hok⟩
        have hrow : pos.col + d = 2 := congrArg Position.col hdest
        have hcol4 : pos.col = 4 := congrArg Position.col hm3
        omega
  · rintro ⟨h1, h2, hpos4, hside, hch⟩
    refine ⟨k, hcell, hturn, ?_, hch⟩
    unfold getPseudoLegalMoves
    rw [hk]
    dsimp only
    unfold getKingMoves
    apply List.mem_append.mpr
    right
    apply mem_getCastlingMoves.mpr
    have hrow : pos.row = backRankOf k.color := congrArg Position.row hpos4
    have hcol : pos.col = 4 := congrArg Position.col hpos4
    refine ⟨h1, by rw [hppos]; exact h2, by rw [hppos]; exact hpos4, ?_⟩
    rcases hside with ⟨hdd, hok⟩ | ⟨hdd, hok⟩
    · left
      refine ⟨?_, hok⟩
      rw [hdd, hpos4]
      norm_num
    · right
      refine ⟨?_, hok⟩
      rw [hdd, hpos4]
      norm_num

/-- Witness for the amended C5 at a concrete castling-ready position. -/
theorem c5_castling_gating_witness :
    ({ row := 7, col := 6 } : Position) ∈
      getValidMoves { row := 7, col := 4 } castleReadyState := by
  have h := c5_castling_gating_amended castleReadyState { row := 7, col := 4 }
    (mkPiece king white 7 4 false) 2 (by decide) rfl rfl rfl (Or.inl rfl)
  exact h.mpr ⟨rfl, by decide, by decide, Or.inl ⟨rfl,
    mkPiece rook white 7 7 false, by decide, rfl, rfl, rfl, by decide, by decide, by decide⟩,
    by decide⟩

/-- Attack detection is the union of the castling-free pseudo-legal move
sets of the opposing pieces. -/
lemma isPositionUnderAttack_iff {t : Position} {c : PieceColor} {s : GameState} :
    isPositionUnderAttack t c s = true ↔
      ∃ rc ∈ coords, ∃ p, cellAt s.board rc.1 rc.2 = some p ∧
        p.color = (if c = white then black else white) ∧
        t ∈ getPseudoLegalMovesForAttack p s := by
  unfold isPositionUnderAttack
  rw [List.any_eq_true]
  constructor
  · rintro ⟨rc, hrc, hpred⟩
    refine ⟨rc, hrc, ?_⟩
    cases hcell : cellAt s.board rc.1 rc.2 with
    | none => rw [hcell] at hpred; simp at hpred
    | some p =>
      rw [hcell] at hpred
      dsimp only at hpred
      rw [Bool.and_eq_true] at hpred
      obtain ⟨hc1, hc2⟩ := hpred
      rw [List.any_eq_true] at hc2
      obtain ⟨x, hx, hxe⟩ := hc2
      rw [positionsEqual_iff.mp hxe] at hx
      exact ⟨p, rfl, by simpa using hc1, hx⟩
  · rintro ⟨rc, hrc, p, hp, hpc, hmem⟩
    refine ⟨rc, hrc, ?_⟩
    rw [hp]
    dsimp only
    rw [Bool.and_eq_true]
    exact ⟨by simpa using hpc, List.any_eq_true.mpr ⟨t, hmem, positionsEqual_iff.mpr rfl⟩⟩

/-- The one-square pawn advance belongs to the pawn pseudo-legal move set
whenever the square ahead is on the board and empty. -/
lemma pawn_forward_mem {q : Piece} {s : GameState}
    (hb : isPositionOnBoard { row := q.position.row + (if q.color = white then -1 else 1), col := q.position.col } = true)
    (he : cellAt s.board (q.position.row + (if q.color = white then -1 else 1))
        q.position.col = none) :
    ({ row := q.position.row + (if q.color = white then -1 else 1), col := q.position.col } : Position) ∈ getPawnMoves q s := by
  unfold getPawnMoves
  dsimp only
  apply List.mem_append.mpr
  left
  apply List.mem_append.mpr
  left
  rw [if_pos ⟨hb, he⟩]
  by_cases hm : q.hasMoved = false
  · rw [if_pos hm]
    by_cases h2 : isPositionOnBoard { row := q.position.row + (if q.color = white then -1 else 1) * 2, col := q.position.col } = true ∧
        cellAt s.board (q.position.row + (if q.color = white then -1 else 1) * 2) q.position.col = none
    · rw [if_pos h2]
      exact List.mem_cons_self _ _
    · rw [if_neg h2]
      exact List.mem_singleton.mpr rfl
  · rw [if_neg hm]
    exact List.mem_singleton.mpr rfl

/-- The two-square pawn advance belongs to the pawn pseudo-legal move set
whenever the pawn is unmoved and both squares ahead are on the board and
empty. -/
lemma pawn_forward_two_mem {q : Piece} {s : GameState} (hm : q.hasMoved = false)
    (hb : isPositionOnBoard { row := q.position.row + (if q.color = white then -1 else 1), col := q.position.col } = true)
    (he : cellAt s.board (q.position.row + (if q.color = white then -1 else 1))
        q.position.col = none)
    (hb2 : isPositionOnBoard { row := q.position.row + (if q.color = white then -1 else 1) * 2, col := q.position.col } = true)
    (he2 : cellAt s.board (q.position.row + (if q.color = white then -1 else 1) * 2)
        q.position.col = none) :
    ({ row := q.position.row + (if q.color = white then -1 else 1) * 2, col := q.position.col } : Position) ∈ getPawnMoves q s := by
  unfold getPawnMoves
  dsimp only
  apply List.mem_append.mpr
  left
  apply List.mem_append.mpr
  left
  rw [if_pos ⟨hb, he⟩, if_pos hm, if_pos ⟨hb2, he2⟩]
  exact List.mem_cons.mpr (Or.inr (List.mem_singleton.mpr rfl))

/-- Counterexample to claim C9 as stated: the empty square f6 is diagonally
ahead of the white e5 pawn of enPassantPinState, and it does count as
attacked, because the pawn generates it as an en-passant destination. -/
theorem c9_pawn_attack_counterexample :
    cellAt enPassantPinState.board 3 4 = some (mkPiece pawn white 3 4 true) ∧
    cellAt enPassantPinState.board 2 5 = none ∧
    ({ row := 2, col := 5 } : Position) ∈
      getPawnMoves (mkPiece pawn white 3 4 true) enPassantPinState ∧
    isPositionUnderAttack { row := 2, col := 5 } black enPassantPinState = true := by
  decide

/-- Claim C9 as amended: attack detection counts a square as attacked exactly
when it lies in some opposing piece castling-free pseudo-legal move set; an
empty square straight ahead of an enemy pawn (one square, or also two from an
unmoved pawn over an empty square) therefore counts as attacked; a pawn
generates a sideways destination only onto an enemy-occupied square or as its
en-passant destination; and the castling current-square and transit-square
checks use exactly this notion of attacked. -/
theorem c9_pawn_attack_coverage (s : GameState) (c : PieceColor) (hwf : BoardWF s.board) :
    (∀ t : Position, isPositionUnderAttack t c s = true ↔
      ∃ rc ∈ coords, ∃ p, cellAt s.board rc.1 rc.2 = some p ∧
        p.color = (if c = white then black else white) ∧
        t ∈ getPseudoLegalMovesForAttack p s) ∧
    (∀ rq cq : Int, ∀ q : Piece, cellAt s.board rq cq = some q →
      q.position = { row := rq, col := cq } → q.type = PieceType.pawn →
      q.color = (if c = white then black else white) →
      ∀ dir : Int, dir = (if q.color = white then -1 else 1) →
        (isPositionOnBoard { row := rq + dir, col := cq } = true →
         cellAt s.board (rq + dir) cq = none →
         isPositionUnderAttack { row := rq + dir, col := cq } c s = true) ∧
        (q.hasMoved = false →
         isPositionOnBoard { row := rq + dir, col := cq } = true →
         cellAt s.board (rq + dir) cq = none →
         isPositionOnBoard { row := rq + dir * 2, col := cq } = true →
         cellAt s.board (rq + dir * 2) cq = none →
         isPositionUnderAttack { row := rq + dir * 2, col := cq } c s = true)) ∧
    (∀ q : Piece, ∀ dest : Position, dest ∈ getPawnMoves q s →
      dest.col ≠ q.position.col →
      (∃ t2, cellAt s.board dest.row dest.col = some t2 ∧ t2.color ≠ q.color) ∨
      dest ∈ getEnPassantMoves q s) ∧
    (∀ king0 : Piece, ∀ dest : Position, dest ∈ getCastlingMoves king0 s →
      isPositionUnderAttack king0.position king0.color s = false ∧
      (dest = { row := backRankOf king0.color, col := 6 } →
        isPositionUnderAttack { row := backRankOf king0.color, col := 5 }
          king0.color s = false) ∧
      (dest = { row := backRankOf king0.color, col := 2 } →
        isPositionUnderAttack { row := backRankOf king0.color, col := 3 }
          king0.color s = false)) := by
  refine ⟨fun t => isPositionUnderAttack_iff, ?_, ?_, ?_⟩
  · intro rq cq q hcell hqp hqt hqc dir hdir
    subst hdir
    constructor
    · intro hb he
      apply isPositionUnderAttack_iff.mpr
      refine ⟨(rq, cq), cellAt_some_mem_coords hwf hcell, q, hcell, hqc, ?_⟩
      unfold getPseudoLegalMovesForAttack
      rw [hqt]
      dsimp only
      have := @pawn_forward_mem q s
        (by rw [hqp]; exact hb) (by rw [hqp]; exact he)
      rw [hqp] at this
      exact this
    · intro hm hb he hb2 he2
      apply isPositionUnderAttack_iff.mpr
      refine ⟨(rq, cq), cellAt_some_mem_coords hwf hcell, q, hcell, hqc, ?_⟩
      unfold getPseudoLegalMovesForAttack
      rw [hqt]
      dsimp only
      have := @pawn_forward_two_mem q s hm
        (by rw [hqp]; exact hb) (by rw [hqp]; exact he)
        (by rw [hqp]; exact hb2) (by rw [hqp]; exact he2)
      rw [hqp] at this
      exact this
  · intro q dest hmem hcol
    unfold getPawnMoves at hmem
    dsimp only at hmem
    rcases List.mem_append.mp hmem with hmem2 | hep
    · rcases List.mem_append.mp hmem2 with hfwd | hcap
      · exfalso
        generalize (if q.color = white then -1 else (1 : Int)) = dir at hfwd
        split at hfwd
        · split at hfwd
          · split at hfwd
            · rcases List.mem_cons.mp hfwd with heq | hfwd2
              · exact hcol (by rw [heq])
              · rw [List.mem_singleton] at hfwd2
                exact hcol (by rw [hfwd2])
            · rw [List.mem_singleton] at hfwd
              exact hcol (by rw [hfwd])
          · rw [List.mem_singleton] at hfwd
            exact hcol (by rw [hfwd])
        · exact List.not_mem_nil _ hfwd
      · left
        obtain ⟨-, hpred⟩ := List.mem_filter.mp hcap
        rw [Bool.and_eq_true] at hpred
        obtain ⟨-, hpred2⟩ := hpred
        cases hcell2 : cellAt s.board dest.row dest.col with
        | none => rw [hcell2] at hpred2; simp at hpred2
        | some t2 =>
          rw [hcell2] at hpred2
          refine ⟨t2, rfl, ?_⟩
          simpa using hpred2
    · right
      exact hep
  · intro king0 dest hmem
    obtain ⟨-, h2, -, hside⟩ := mem_getCastlingMoves.mp hmem
    refine ⟨h2, ?_, ?_⟩
    · intro hd
      rcases hside with ⟨-, hok⟩ | ⟨hdq, -⟩
      · obtain ⟨rk, -, -, -, -, -, -, ha⟩ := hok
        exact ha
      · exfalso
        rw [hd] at hdq
        have := congrArg Position.col hdq
        simp at this
    · intro hd
      rcases hside with ⟨hdk, -⟩ | ⟨-, hok⟩
      · exfalso
        rw [hd] at hdk
        have := congrArg Position.col hdk
        simp at this
      · obtain ⟨rk, -, -, -, -, -, -, -, ha⟩ := hok
        exact ha

/-- Witness for the amended C9: the empty square in front of the white e5
pawn of enPassantPinState counts as attacked from the black perspective. -/
theorem c9_pawn_attack_coverage_witness :
    isPositionUnderAttack { row := 2, col := 4 } black enPassantPinState = true := by
  have h := c9_pawn_attack_coverage enPassantPinState black (by decide)
  exact (h.2.1 3 4 (mkPiece pawn white 3 4 true) (by decide) rfl rfl (by decide)
    (-1) (by decide)).1 (by decide) (by decide)

/-- Claim C1 fails on the code: in enPassantPinState the generator lists the
en-passant capture as legal for the white e5 pawn, because the self-check
simulation leaves the captured black pawn on the board, but executing the
move with the en-passant flag removes that pawn and leaves the white king on
h5 attacked by the black rook on a5. -/
theorem c1_en_passant_self_check_bug :
    ({ row := 2, col := 5 } : Position) ∈
      getValidMoves { row := 3, col := 4 } enPassantPinState ∧
    (executeMove enPassantPinMove enPassantPinState).isSome = true ∧
    (executeMove enPassantPinMove enPassantPinState).all
      (fun s2 => isInCheck white s2) = true := by
  exact ⟨by decide, by decide, by decide⟩

/-- The legal white moves of the initial position, in generator order. -/
def initialWhiteMoves : List Move :=
  [ { fromPos := { row := 6, col := 0 }, toPos := { row := 5, col := 0 }, piece := mkPiece pawn white 6 0 false },
    { fromPos := { row := 6, col := 0 }, toPos := { row := 4, col := 0 }, piece := mkPiece pawn white 6 0 false },
    { fromPos := { row := 6, col := 1 }, toPos := { row := 5, col := 1 }, piece := mkPiece pawn white 6 1 false },
    { fromPos := { row := 6, col := 1 }, toPos := { row := 4, col := 1 }, piece := mkPiece pawn white 6 1 false },
    { fromPos := { row := 6, col := 2 }, toPos := { row := 5, col := 2 }, piece := mkPiece pawn white 6 2 false },
    { fromPos := { row := 6, col := 2 }, toPos := { row := 4, col := 2 }, piece := mkPiece pawn white 6 2 false },
    { fromPos := { row := 6, col := 3 }, toPos := { row := 5, col := 3 }, piece := mkPiece pawn white 6 3 false },
    { fromPos := { row := 6, col := 3 }, toPos := { row := 4, col := 3 }, piece := mkPiece pawn white 6 3 false },
    { fromPos := { row := 6, col := 4 }, toPos := { row := 5, col := 4 }, piece := mkPiece pawn white 6 4 false },
    { fromPos := { row := 6, col := 4 }, toPos := { row := 4, col := 4 }, piece := mkPiece pawn white 6 4 false },
    { fromPos := { row := 6, col := 5 }, toPos := { row := 5, col := 5 }, piece := mkPiece pawn white 6 5 false },
    { fromPos := { row := 6, col := 5 }, toPos := { row := 4, col := 5 }, piece := mkPiece pawn white 6 5 false },
    { fromPos := { row := 6, col := 6 }, toPos := { row := 5, col := 6 }, piece := mkPiece pawn white 6 6 false },
    { fromPos := { row := 6, col := 6 }, toPos := { row := 4, col := 6 }, piece := mkPiece pawn white 6 6 false },
    { fromPos := { row := 6, col := 7 }, toPos := { row := 5, col := 7 }, piece := mkPiece pawn white 6 7 false },
    { fromPos := { row := 6, col := 7 }, toPos := { row := 4, col := 7 }, piece := mkPiece pawn white 6 7 false },
    { fromPos := { row := 7, col := 1 }, toPos := { row := 5, col := 0 }, piece := mkPiece knight white 7 1 false },
    { fromPos := { row := 7, col := 1 }, toPos := { row := 5, col := 2 }, piece := mkPiece knight white 7 1 false },
    { fromPos := { row := 7, col := 6 }, toPos := { row := 5, col := 5 }, piece := mkPiece knight white 7 6 false },
    { fromPos := { row := 7, col := 6 }, toPos := { row := 5, col := 7 }, piece := mkPiece knight white 7 6 false } ]

/-- After this move from the initial position, black has exactly 20 legal
replies; false when the move cannot be executed. -/
def blackRepliesAre20 (m : Move) : Bool :=
  match executeMove m initializeGame with
  | some s2 => (getAllLegalMoves black s2).length == 20
  | none => false

set_option maxRecDepth 100000 in
set_option maxHeartbeats 2000000 in
/-- The generator output of the initial position, computed. -/
lemma initialWhiteMoves_eq :
    getAllLegalMoves white initializeGame = initialWhiteMoves := by
  decide

set_option maxRecDepth 100000 in
set_option maxHeartbeats 2000000 in
/-- Black reply count after initial move 0. -/
lemma c7_reply_0 :
    blackRepliesAre20 { fromPos := { row := 6, col := 0 }, toPos := { row := 5, col := 0 }, piece := mkPiece pawn white 6 0 false } = true := by
  decide

set_option maxRecDepth 100000 in
set_option maxHeartbeats 2000000 in
/-- Black reply count after initial move 1. -/
lemma c7_reply_1 :
    blackRepliesAre20 { fromPos := { row := 6, col := 0 }, toPos := { row := 4, col := 0 }, piece := mkPiece pawn white 6 0 false } = true := by
  decide

set_option maxRecDepth 100000 in
set_option maxHeartbeats 2000000 in
/-- Black reply count after initial move 2. -/
lemma c7_reply_2 :
    blackRepliesAre20 { fromPos := { row := 6, col := 1 }, toPos := { row := 5, col := 1 }, piece := mkPiece pawn white 6 1 false } = true := by
  decide

set_option maxRecDepth 100000 in
set_option maxHeartbeats 2000000 in
/-- Black reply count after initial move 3. -/
lemma c7_reply_3 :
    blackRepliesAre20 { fromPos := { row := 6, col := 1 }, toPos := { row := 4, col := 1 }, piece := mkPiece pawn white 6 1 false } = true := by
  decide

set_option maxRecDepth 100000 in
set_option maxHeartbeats 2000000 in
/-- Black reply count after initial move 4. -/
lemma c7_reply_4 :
    blackRepliesAre20 { fromPos := { row := 6, col := 2 }, toPos := { row := 5, col := 2 }, piece := mkPiece pawn white 6 2 false } = true := by
  decide

set_option maxRecDepth 100000 in
set_option maxHeartbeats 2000000 in
/-- Black reply count after initial move 5. -/
lemma c7_reply_5 :
    blackRepliesAre20 { fromPos := { row := 6, col := 2 }, toPos := { row := 4, col := 2 }, piece := mkPiece pawn white 6 2 false } = true := by
  decide

set_option maxRecDepth 100000 in
set_option maxHeartbeats 2000000 in
/-- Black reply count after initial move 6. -/
lemma c7_reply_6 :
    blackRepliesAre20 { fromPos := { row := 6, col := 3 }, toPos := { row := 5, col := 3 }, piece := mkPiece pawn white 6 3 false } = true := by
  decide

set_option maxRecDepth 100000 in
set_option maxHeartbeats 2000000 in
/-- Black reply count after initial move 7. -/
lemma c7_reply_7 :
    blackRepliesAre20 { fromPos := { row := 6, col := 3 }, toPos := { row := 4, col := 3 }, piece := mkPiece pawn white 6 3 false } = true := by
  decide

set_option maxRecDepth 100000 in
set_option maxHeartbeats 2000000 in
/-- Black reply count after initial move 8. -/
lemma c7_reply_8 :
    blackRepliesAre20 { fromPos := { row := 6, col := 4 }, toPos := { row := 5, col := 4 }, piece := mkPiece pawn white 6 4 false } = true := by
  decide

set_option maxRecDepth 100000 in
set_option maxHeartbeats 2000000 in
/-- Black reply count after initial move 9. -/
lemma c7_reply_9 :
    blackRepliesAre20 { fromPos := { row := 6, col := 4 }, toPos := { row := 4, col := 4 }, piece := mkPiece pawn white 6 4 false } = true := by
  decide

set_option maxRecDepth 100000 in
set_option maxHeartbeats 2000000 in
/-- Black reply count after initial move 10. -/
lemma c7_reply_10 :
    blackRepliesAre20 { fromPos := { row := 6, col := 5 }, toPos := { row := 5, col := 5 }, piece := mkPiece pawn white 6 5 false } = true := by
  decide

set_option maxRecDepth 100000 in
set_option maxHeartbeats 2000000 in
/-- Black reply count after initial move 11. -/
lemma c7_reply_11 :
    blackRepliesAre20 { fromPos := { row := 6, col := 5 }, toPos := { row := 4, col := 5 }, piece := mkPiece pawn white 6 5 false } = true := by
  decide

set_option maxRecDepth 100000 in
set_option maxHeartbeats 2000000 in
/-- Black reply count after initial move 12. -/
lemma c7_reply_12 :
    blackRepliesAre20 { fromPos := { row := 6, col := 6 }, toPos := { row := 5, col := 6 }, piece := mkPiece pawn white 6 6 false } = true := by
  decide

set_option maxRecDepth 100000 in
set_option maxHeartbeats 2000000 in
/-- Black reply count after initial move 13. -/
lemma c7_reply_13 :
    blackRepliesAre20 { fromPos := { row := 6, col := 6 }, toPos := { row := 4, col := 6 }, piece := mkPiece pawn white 6 6 false } = true := by
  decide

set_option maxRecDepth 100000 in
set_option maxHeartbeats 2000000 in
/-- Black reply count after initial move 14. -/
lemma c7_reply_14 :
    blackRepliesAre20 { fromPos := { row := 6, col := 7 }, toPos := { row := 5, col := 7 }, piece := mkPiece pawn white 6 7 false } = true := by
  decide

set_option maxRecDepth 100000 in
set_option maxHeartbeats 2000000 in
/-- Black reply count after initial move 15. -/
lemma c7_reply_15 :
    blackRepliesAre20 { fromPos := { row := 6, col := 7 }, toPos := { row := 4, col := 7 }, piece := mkPiece pawn white 6 7 false } = true := by
  decide

set_option maxRecDepth 100000 in
set_option maxHeartbeats 2000000 in
/-- Black reply count after initial move 16. -/
lemma c7_reply_16 :
    blackRepliesAre20 { fromPos := { row := 7, col := 1 }, toPos := { row := 5, col := 0 }, piece := mkPiece knight white 7 1 false } = true := by
  decide

set_option maxRecDepth 100000 in
set_option maxHeartbeats 2000000 in
/-- Black reply count after initial move 17. -/
lemma c7_reply_17 :
    blackRepliesAre20 { fromPos := { row := 7, col := 1 }, toPos := { row := 5, col := 2 }, piece := mkPiece knight white 7 1 false } = true := by
  decide

set_option maxRecDepth 100000 in
set_option maxHeartbeats 2000000 in
/-- Black reply count after initial move 18. -/
lemma c7_reply_18 :
    blackRepliesAre20 { fromPos := { row := 7, col := 6 }, toPos := { row := 5, col := 5 }, piece := mkPiece knight white 7 6 false } = true := by
  decide

set_option maxRecDepth 100000 in
set_option maxHeartbeats 2000000 in
/-- Black reply count after initial move 19. -/
lemma c7_reply_19 :
    blackRepliesAre20 { fromPos := { row := 7, col := 6 }, toPos := { row := 5, col := 7 }, piece := mkPiece knight white 7 6 false } = true := by
  decide

/-- Claim C7: the initial position gives white exactly 20 legal moves, 16 by
pawns and 4 by knights, and after executing any one of them black also has
exactly 20 legal moves. -/
theorem c7_initial_position_move_counts :
    (getAllLegalMoves white initializeGame).length = 20 ∧
    ((getAllLegalMoves white initializeGame).filter
      fun m => m.piece.type = PieceType.pawn).length = 16 ∧
    ((getAllLegalMoves white initializeGame).filter
      fun m => m.piece.type = PieceType.knight).length = 4 ∧
    (getAllLegalMoves white initializeGame).all blackRepliesAre20 = true := by
  refine ⟨?_, ?_, ?_, ?_⟩
  · rw [initialWhiteMoves_eq]
    decide
  · rw [initialWhiteMoves_eq]
    decide
  · rw [initialWhiteMoves_eq]
    decide
  · rw [initialWhiteMoves_eq]
    simp only [initialWhiteMoves, List.all_cons, List.all_nil, Bool.and_eq_true]
    exact ⟨c7_reply_0, c7_reply_1, c7_reply_2, c7_reply_3, c7_reply_4, c7_reply_5, c7_reply_6, c7_reply_7, c7_reply_8, c7_reply_9, c7_reply_10, c7_reply_11, c7_reply_12, c7_reply_13, c7_reply_14, c7_reply_15, c7_reply_16, c7_reply_17, c7_reply_18, c7_reply_19, trivial⟩

/-- The scored root moves are the legal moves of black, in order. -/
lemma scoredRootMoves_map_fst (s : GameState) (cfg : AIOpponent.AIConfig)
    (rand : Nat → Rat) :
    (AIOpponent.scoredRootMoves s cfg rand).map Prod.fst = getAllLegalMoves black s := by
  unfold AIOpponent.scoredRootMoves
  dsimp only
  rw [List.map_map]
  exact List.enum_map_snd (getAllLegalMoves black s)

/-- Every sorted root entry carries a legal move of black. -/
lemma sortedRootMoves_fst_mem {s : GameState} {cfg : AIOpponent.AIConfig}
    {rand : Nat → Rat} {x : Move × Rat}
    (hx : x ∈ AIOpponent.sortedRootMoves s cfg rand) :
    x.1 ∈ getAllLegalMoves black s := by
  unfold AIOpponent.sortedRootMoves at hx
  have hx2 := List.mem_mergeSort.mp hx
  rw [← scoredRootMoves_map_fst s cfg rand]
  exact List.mem_map_of_mem Prod.fst hx2

/-- Every legal move of black is carried by some sorted root entry. -/
lemma mem_sortedRootMoves_of_legal {s : GameState} {cfg : AIOpponent.AIConfig}
    {rand : Nat → Rat} {m : Move} (hm : m ∈ getAllLegalMoves black s) :
    ∃ q, (m, q) ∈ AIOpponent.sortedRootMoves s cfg rand := by
  rw [← scoredRootMoves_map_fst s cfg rand] at hm
  obtain ⟨x, hx, hxm⟩ := List.mem_map.mp hm
  refine ⟨x.2, ?_⟩
  unfold AIOpponent.sortedRootMoves
  apply List.mem_mergeSort.mpr
  cases x with
  | mk x1 x2 =>
    simp only at hxm
    rw [hxm] at hx
    exact hx

/-- The sorted root move list is nonempty whenever black has a legal move. -/
lemma sortedRootMoves_ne_nil {s : GameState} {cfg : AIOpponent.AIConfig}
    {rand : Nat → Rat} (hL : getAllLegalMoves black s ≠ []) :
    AIOpponent.sortedRootMoves s cfg rand ≠ [] := by
  intro h0
  apply hL
  cases hsc : AIOpponent.scoredRootMoves s cfg rand with
  | nil =>
    rw [← scoredRootMoves_map_fst s cfg rand, hsc]
    rfl
  | cons a t =>
    exfalso
    have ha : a ∈ AIOpponent.sortedRootMoves s cfg rand := by
      unfold AIOpponent.sortedRootMoves
      exact List.mem_mergeSort.mpr (by rw [hsc]; exact List.mem_cons_self _ _)
    rw [h0] at ha
    exact List.not_mem_nil a ha

/-- Claim C8: with at least one legal black move, generateMove never selects
a move that delivers immediate checkmate while a non-checkmating legal move
exists, unconditionally in easy mode and in hard mode while fewer than ten
plies have been played; from ply ten onward in hard mode no exclusion
applies and the top-scored candidate is returned unfiltered; and in every
mode a legal move is returned even when all moves deliver checkmate. -/
theorem c8_ai_checkmate_exclusion (s : GameState) (cfg : AIOpponent.AIConfig)
    (rand : Nat → Rat) (hL : getAllLegalMoves black s ≠ []) :
    (cfg.difficulty = AIOpponent.DifficultyMode.easy →
      (∃ m ∈ getAllLegalMoves black s, AIOpponent.wouldResultInCheckmate m s = false) →
      (AIOpponent.generateMove s cfg rand).all
        (fun r => !(AIOpponent.wouldResultInCheckmate r s)) = true) ∧
    (cfg.difficulty = AIOpponent.DifficultyMode.hard → s.moveCount < 10 →
      (∃ m ∈ getAllLegalMoves black s, AIOpponent.wouldResultInCheckmate m s = false) →
      (AIOpponent.generateMove s cfg rand).all
        (fun r => !(AIOpponent.wouldResultInCheckmate r s)) = true) ∧
    (cfg.difficulty = AIOpponent.DifficultyMode.hard → ¬ s.moveCount < 10 →
      AIOpponent.generateMove s cfg rand =
        (AIOpponent.sortedRootMoves s cfg rand).head?.map Prod.fst) ∧
    ((AIOpponent.generateMove s cfg rand).isSome = true ∧
      ∀ r, AIOpponent.generateMove s cfg rand = some r →
        r ∈ getAllLegalMoves black s) := by
  have hfilter_head : ∀ hex : ∃ m ∈ getAllLegalMoves black s,
      AIOpponent.wouldResultInCheckmate m s = false,
      ((AIOpponent.sortedRootMoves s cfg rand).filter
        (fun ms => !(AIOpponent.wouldResultInCheckmate ms.1 s))).length > 0 := by
    rintro ⟨m, hmL, hmw⟩
    obtain ⟨q, hq⟩ := @mem_sortedRootMoves_of_legal s cfg rand m hmL
    apply List.length_pos.mpr
    exact List.ne_nil_of_mem (List.mem_filter.mpr ⟨hq, by simp [hmw]⟩)
  have hsome : ∀ b : Move × Rat, b ∈ AIOpponent.sortedRootMoves s cfg rand →
      (some b.1 : Option Move).isSome = true ∧
      (∀ r, (some b.1 : Option Move) = some r → r ∈ getAllLegalMoves black s) := by
    intro b hb
    refine ⟨rfl, fun r hr => ?_⟩
    injection hr with hr
    rw [← hr]
    exact sortedRootMoves_fst_mem hb
  refine ⟨?_, ?_, ?_, ?_⟩
  · intro hcfg hex
    unfold AIOpponent.generateMove
    dsimp only
    rw [if_neg hL, if_pos hcfg, if_pos (hfilter_head hex)]
    cases hb : (AIOpponent.sortedRootMoves s cfg rand).filter
        (fun ms => !(AIOpponent.wouldResultInCheckmate ms.1 s)) with
    | nil =>
      have := hfilter_head hex
      rw [hb] at this
      simp at this
    | cons b t =>
      have hbmem : b ∈ (AIOpponent.sortedRootMoves s cfg rand).filter
          (fun ms => !(AIOpponent.wouldResultInCheckmate ms.1 s)) := by
        rw [hb]
        exact List.mem_cons_self _ _
      have hpred := (List.mem_filter.mp hbmem).2
      simpa using hpred
  · intro hcfg h10 hex
    unfold AIOpponent.generateMove
    dsimp only
    rw [if_neg hL, if_neg (by rw [hcfg]; intro hcon; exact AIOpponent.DifficultyMode.noConfusion hcon),
      if_pos h10, if_pos (hfilter_head hex)]
    cases hb : (AIOpponent.sortedRootMoves s cfg rand).filter
        (fun ms => !(AIOpponent.wouldResultInCheckmate ms.1 s)) with
    | nil =>
      have := hfilter_head hex
      rw [hb] at this
      simp at this
    | cons b t =>
      have hbmem : b ∈ (AIOpponent.sortedRootMoves s cfg rand).filter
          (fun ms => !(AIOpponent.wouldResultInCheckmate ms.1 s)) := by
        rw [hb]
        exact List.mem_cons_self _ _
      have hpred := (List.mem_filter.mp hbmem).2
      simpa using hpred
  · intro hcfg h10
    unfold AIOpponent.generateMove
    dsimp only
    rw [if_neg hL, if_neg (by rw [hcfg]; intro hcon; exact AIOpponent.DifficultyMode.noConfusion hcon),
      if_neg h10]
    cases hs : AIOpponent.sortedRootMoves s cfg rand <;> rfl
  · unfold AIOpponent.generateMove
    dsimp only
    rw [if_neg hL]
    by_cases hcfg : cfg.difficulty = AIOpponent.DifficultyMode.easy
    · rw [if_pos hcfg]
      by_cases hlen : ((AIOpponent.sortedRootMoves s cfg rand).filter
          (fun ms => !(AIOpponent.wouldResultInCheckmate ms.1 s))).length > 0
      · rw [if_pos hlen]
        cases hb : (AIOpponent.sortedRootMoves s cfg rand).filter
            (fun ms => !(AIOpponent.wouldResultInCheckmate ms.1 s)) with
        | nil => rw [hb] at hlen; simp at hlen
        | cons b t =>
          exact hsome b (List.mem_filter.mp (by rw [hb]; exact List.mem_cons_self _ _)).1
      · rw [if_neg hlen]
        cases hb : AIOpponent.sortedRootMoves s cfg rand with
        | nil => exact absurd hb (sortedRootMoves_ne_nil hL)
        | cons b t => exact hsome b (by rw [hb]; exact List.mem_cons_self _ _)
    · rw [if_neg hcfg]
      by_cases h10 : s.moveCount < 10
      · rw [if_pos h10]
        by_cases hlen : ((AIOpponent.sortedRootMoves s cfg rand).filter
            (fun ms => !(AIOpponent.wouldResultInCheckmate ms.1 s))).length > 0
        · rw [if_pos hlen]
          cases hb : (AIOpponent.sortedRootMoves s cfg rand).filter
              (fun ms => !(AIOpponent.wouldResultInCheckmate ms.1 s)) with
          | nil => rw [hb] at hlen; simp at hlen
          | cons b t =>
            exact hsome b (List.mem_filter.mp (by rw [hb]; exact List.mem_cons_self _ _)).1
        · rw [if_neg hlen]
          cases hb : AIOpponent.sortedRootMoves s cfg rand with
          | nil => exact absurd hb (sortedRootMoves_ne_nil hL)
          | cons b t => exact hsome b (by rw [hb]; exact List.mem_cons_self _ _)
      · rw [if_neg h10]
        cases hb : AIOpponent.sortedRootMoves s cfg rand with
        | nil => exact absurd hb (sortedRootMoves_ne_nil hL)
        | cons b t => exact hsome b (by rw [hb]; exact List.mem_cons_self _ _)

/-- Easy difficulty configuration used by the C8 witness. -/
def aiEasyConfig : AIOpponent.AIConfig :=
  { difficulty := AIOpponent.DifficultyMode.easy, maxThinkingTime := 2000 }

/-- A constant stand-in for the Math.random stream. -/
def constHalfRand : Nat → Rat := fun _ => 1/2

/-- A concrete non-checkmating legal black move of aiWitnessState. -/
def aiKingSlide : Move :=
  { fromPos := { row := 0, col := 0 }, toPos := { row := 0, col := 1 },
    piece := mkPiece king black 0 0 true }

/-- Witness for C8 on a concrete position with a non-checkmating move. -/
theorem c8_ai_checkmate_exclusion_witness :
    getAllLegalMoves black aiWitnessState ≠ [] ∧
    AIOpponent.wouldResultInCheckmate aiKingSlide aiWitnessState = false ∧
    (AIOpponent.generateMove aiWitnessState aiEasyConfig constHalfRand).all
      (fun r => !(AIOpponent.wouldResultInCheckmate r aiWitnessState)) = true ∧
    (AIOpponent.generateMove aiWitnessState aiEasyConfig constHalfRand).isSome = true := by
  have hL : getAllLegalMoves black aiWitnessState ≠ [] := by decide
  have hmem : aiKingSlide ∈ getAllLegalMoves black aiWitnessState := by decide
  have hnomate : AIOpponent.wouldResultInCheckmate aiKingSlide aiWitnessState = false := by
    decide
  have h := c8_ai_checkmate_exclusion aiWitnessState aiEasyConfig constHalfRand hL
  exact ⟨hL, hnomate, h.1 rfl ⟨aiKingSlide, hmem, hnomate⟩, h.2.2.2.1⟩

end ChessSpec
